import Mathlib

/-!
Verification development for the loot-generator / dungeon-creator repository
(`lootgen.py` and `encountergen.py`), as a shallow embedding in Lean 4.

Conventions of the embedding:
* Python floats are modelled as exact rationals (`ℚ`).
* JSON objects are modelled as structures whose optional keys are `Option`
  fields (`d.get(k, default)` becomes `field.getD default`); JSON dictionaries
  keyed by strings are modelled as `List (String × α)` holding the dict's
  items in insertion order.
* Python exceptions are the inductive `PyError`; a fallible stateful
  computation returns `Res α`, which carries the random-generator state both
  on success and at the raise point (the state survives an exception).
* The seeded pseudo-random stream (`random.Random(seed)`, a Mersenne
  Twister, which is library code outside this repository) is modelled from
  the spec as an abstract infinite stream of naturals determined by the
  seed: an `Rng` is a stream together with a position, and each logical
  draw (`randint`, `random`, `choice`, `choices`) consumes one position.
-/

set_option linter.unusedVariables false

/-- Random-generator state: an underlying stream (determined by the seed via
the pseudo-random algorithm) and the number of draws consumed so far. -/
structure Rng where
  stream : Nat → Nat
  pos : Nat

/-- Consume one raw draw from the stream. -/
def Rng.next (r : Rng) : Nat × Rng :=
  (r.stream r.pos, { stream := r.stream, pos := r.pos + 1 })

/-- Modelled from the spec: `random.Random(seed)` — the seed determines the
whole stream through the (external) pseudo-random algorithm `mt`. -/
def Rng.ofSeed (mt : Int → Nat → Nat) (seed : Int) : Rng :=
  { stream := mt seed, pos := 0 }

/-- Modelled from the spec: `rng.randint(a, b)` draws a uniform integer in
`[a, b]`. Python raises `ValueError` when `b < a`; every call site in the
sources guarantees `a ≤ b`, and the `.max 1` keeps the model total there. -/
def Rng.randint (r : Rng) (a b : Int) : Int × Rng :=
  let (n, r') := r.next
  (a + ((n % ((b - a + 1).toNat.max 1) : Nat) : Int), r')

/-- Modelled from the spec: `rng.random()` draws a uniform rational
in `[0, 1)` (Python returns a 53-bit float). -/
def Rng.randFloat (r : Rng) : ℚ × Rng :=
  let (n, r') := r.next
  (((n % 2 ^ 53 : Nat) : ℚ) / (2 ^ 53 : ℚ), r')

/-- Modelled from the spec: `rng.choice(seq)` picks a uniform element.
Python raises `IndexError` on an empty sequence; every call site passes a
non-empty list, so the default `dflt` is never actually selected. -/
def listChoice (r : Rng) (l : List α) (dflt : α) : α × Rng :=
  let (n, r') := r.next
  (l.getD (n % l.length.max 1) dflt, r')

/-- Python exceptions raised by the two generator modules, one constructor
per raise site (Python distinguishes them by class and message). -/
inductive PyError where
  /-- `ValueError(f"Level {level} not found in level_budgets_gp")` in
  `LootGenerator.generate` — the spec's `ConfigurationError`. -/
  | levelBudget
  /-- `ValueError("Total of weights must be greater than zero")` raised by
  `random.choices` inside lootgen's `_weighted_choice`. -/
  | choicesTotal
  /-- `KeyError(key)` from a mandatory item access `item[key]`. -/
  | keyError (key : String)
  /-- `ZeroDivisionError` from `remaining / value` with a zero coin value. -/
  | zeroDivision
  /-- `ValueError("No combat encounter templates defined ...")`. -/
  | noTemplates
  /-- `ValueError(f"No combat encounter templates match level=..., biome=...,
  slot=...")` — the spec's `NoCandidatesError`. -/
  | noCandidates
  /-- `ValueError("Combat template missing enemy_group_id")`. -/
  | missingGroupId
  /-- `ValueError(f"Enemy group not found: {group_id}")`. -/
  | groupNotFound
  /-- `IndexError` from `items[0]` on an empty candidate list. -/
  | indexError
deriving DecidableEq

/-- Result of a fallible stateful computation: the value or the exception,
together with the random-generator state afterwards. -/
inductive Res (α : Type) where
  | ok (a : α) (rng : Rng)
  | err (e : PyError) (rng : Rng)

/-- Map over the value of a successful result. -/
def Res.map (f : α → β) : Res α → Res β
  | Res.ok a r => Res.ok (f a) r
  | Res.err e r => Res.err e r

/-- Last-wins lookup in a JSON-dictionary item list (later duplicate keys
shadow earlier ones, as in a Python dict built by repeated assignment). -/
def dictGet (k : String) : List (String × α) → Option α
  | [] => none
  | p :: rest =>
    match dictGet k rest with
    | some v => some v
    | none => if p.1 = k then some p.2 else none

/- ----------------------------------------------------------------------
lootgen.py
---------------------------------------------------------------------- -/

/-- One row of `magic_items` / `mundane_goods` in `loot_data.json`; every
key the code reads is optional at the JSON level. -/
structure LootItem where
  id : Option String
  name : Option String
  gp_value : Option ℚ
  weight : Option ℚ
  rarity : Option String
  min_level : Option Int
  max_level : Option Int

/-- The `{}` returned by lootgen's `_weighted_choice` for an empty pool. -/
def emptyLootItem : LootItem :=
  { id := none, name := none, gp_value := none, weight := none,
    rarity := none, min_level := none, max_level := none }

/-- The loaded `loot_data.json` (the four required keys). -/
structure LootData where
  coin_values : List (String × ℚ)
  level_budgets : List (String × ℚ)
  magic_items : List LootItem
  mundane_goods : List LootItem

/-- `_filter_magic_by_level`: keep items with
`int(it.get("min_level", 1)) <= level <= int(it.get("max_level", 20))`. -/
def filterMagicByLevel (items : List LootItem) (level : Int) : List LootItem :=
  items.filter fun it =>
    decide (it.min_level.getD 1 ≤ level) && decide (level ≤ it.max_level.getD 20)

/-- Partial sums of a weight list, as `itertools.accumulate` produces them
for `random.choices`. -/
def cumSums (acc : ℚ) : List ℚ → List ℚ
  | [] => []
  | w :: ws => (acc + w) :: cumSums (acc + w) ws

/-- lootgen's `_weighted_choice`: returns `{}` for an empty pool, otherwise
delegates to `rng.choices(items, weights=[it.get("weight", 1.0)], k=1)`,
which raises `ValueError` when the weight total is not positive and
otherwise consumes one draw and picks by bisection over the cumulative
weights (`bisect(cum_weights, random() * total, 0, len - 1)`). -/
def lootWeightedChoice (rng : Rng) (items : List LootItem) : Res LootItem :=
  if items.isEmpty then Res.ok emptyLootItem rng
  else
    let weights := items.map fun it => it.weight.getD 1
    let total := weights.sum
    if total ≤ 0 then Res.err PyError.choicesTotal rng
    else
      let (r, rng') := rng.randFloat
      let x := r * total
      let idx := ((cumSums 0 weights).take (items.length - 1)).countP fun c => decide (c ≤ x)
      Res.ok (items.getD idx emptyLootItem) rng'

/-- Truncation toward zero, Python's `int(x)` on a float. -/
def ratTrunc (x : ℚ) : Int := if 0 ≤ x then ⌊x⌋ else ⌈x⌉

/-- Insert into a value-descending list, keeping earlier elements first on
ties — one step of Python's stable `sorted(items, key=lambda x: -x[1])`. -/
def insertDesc (p : String × ℚ) : List (String × ℚ) → List (String × ℚ)
  | [] => [p]
  | q :: rest => if p.2 > q.2 then p :: q :: rest else q :: insertDesc p rest

/-- `sorted(coin_values.items(), key=lambda x: -x[1])`: stable sort of the
denominations by descending GP value. -/
def sortCoinsDesc (l : List (String × ℚ)) : List (String × ℚ) :=
  l.foldr insertDesc []

/-- The loop of `_generate_coins` over the sorted denominations: break when
the budget is spent, draw `qty ∈ [0, int(remaining / value)]`, record
positive quantities and subtract their value. A zero denomination value
would raise `ZeroDivisionError` in `remaining / value`. -/
def coinsLoop (rng : Rng) (remaining : ℚ) : List (String × ℚ) → Res (List (String × Nat))
  | [] => Res.ok [] rng
  | (coin, value) :: rest =>
    if remaining ≤ 0 then Res.ok [] rng
    else if value = 0 then Res.err PyError.zeroDivision rng
    else
      if ratTrunc (remaining / value) ≤ 0 then coinsLoop rng remaining rest
      else
        match rng.randint 0 (ratTrunc (remaining / value)) with
        | (qty, rng1) =>
          if 0 < qty then
            match coinsLoop rng1 (remaining - qty * value) rest with
            | Res.ok out rng2 => Res.ok ((coin, qty.toNat) :: out) rng2
            | Res.err e rng2 => Res.err e rng2
          else coinsLoop rng1 remaining rest

/-- `_generate_coins`: sort denominations high-to-low, then run the loop. -/
def generateCoins (rng : Rng) (coin_values : List (String × ℚ)) (budget_gp : ℚ) :
    Res (List (String × Nat)) :=
  coinsLoop rng budget_gp (sortCoinsDesc coin_values)

/-- GP value of a generated coin mixture, exactly as the coin part of
`_calculate_parcel_value` computes it: `coin_values.get(denom, 0.0) * count`
summed over the coins dict. -/
def coinsGPValue (coin_values : List (String × ℚ)) (coins : List (String × Nat)) : ℚ :=
  coins.foldr (fun c acc => ((dictGet c.1 coin_values).getD 0) * (c.2 : ℚ) + acc) 0

/-- A magic item as written into a parcel (all keys mandatory there). -/
structure MagicOut where
  id : String
  name : String
  rarity : String
  gp_value : ℚ
deriving DecidableEq

/-- A mundane item as written into a parcel. -/
structure MundaneOut where
  id : String
  name : String
  gp_value : ℚ
deriving DecidableEq

/-- One loot parcel (`coins`, `magic_items`, `mundane_items`,
`total_value_gp`). -/
structure Parcel where
  coins : List (String × Nat)
  magic_items : List MagicOut
  mundane_items : List MundaneOut
  total_value_gp : ℚ
deriving DecidableEq

/-- Building the magic-item record of a parcel: `item["id"]`,
`item["name"]`, `item.get("rarity", "common")`, `float(item["gp_value"])`;
the mandatory accesses raise `KeyError` in source order when absent. -/
def extractMagicOut (it : LootItem) : Except PyError MagicOut :=
  match it.id with
  | none => Except.error (PyError.keyError "id")
  | some i =>
    match it.name with
    | none => Except.error (PyError.keyError "name")
    | some n =>
      match it.gp_value with
      | none => Except.error (PyError.keyError "gp_value")
      | some v => Except.ok { id := i, name := n, rarity := it.rarity.getD "common", gp_value := v }

/-- Building the mundane-item record of a parcel (`id`, `name`,
`gp_value` mandatory). -/
def extractMundaneOut (it : LootItem) : Except PyError MundaneOut :=
  match it.id with
  | none => Except.error (PyError.keyError "id")
  | some i =>
    match it.name with
    | none => Except.error (PyError.keyError "name")
    | some n =>
      match it.gp_value with
      | none => Except.error (PyError.keyError "gp_value")
      | some v => Except.ok { id := i, name := n, gp_value := v }

/-- `_calculate_parcel_value`: coins plus item GP values (the parcel's own
`total_value_gp` field is not read). -/
def calcParcelValue (p : Parcel) (coin_values : List (String × ℚ)) : ℚ :=
  coinsGPValue coin_values p.coins
    + p.magic_items.foldr (fun it acc => it.gp_value + acc) 0
    + p.mundane_items.foldr (fun it acc => it.gp_value + acc) 0

/-- `round(x, 2)` modelled on exact rationals. -/
def round2 (x : ℚ) : ℚ := ((round (x * 100) : Int) : ℚ) / 100

/-- `LootGenerator._generate_parcel`: coins from 20% of the budget, then one
draw deciding magic (probability 0.4, and only with a non-empty level
filtered magic pool) versus mundane, then the total value. -/
def generateParcel (rng : Rng) (coin_values : List (String × ℚ)) (base_budget : ℚ)
    (magicPool mundane : List LootItem) : Res Parcel :=
  match generateCoins rng coin_values (base_budget * (0.20 : ℚ)) with
  | Res.err e r => Res.err e r
  | Res.ok coins rng1 =>
    match rng1.randFloat with
    | (r, rng2) =>
      if decide (r < (0.4 : ℚ)) && !magicPool.isEmpty then
        match lootWeightedChoice rng2 magicPool with
        | Res.err e rr => Res.err e rr
        | Res.ok item rng3 =>
          match extractMagicOut item with
          | Except.error e => Res.err e rng3
          | Except.ok mo =>
            let p : Parcel := { coins := coins, magic_items := [mo], mundane_items := [],
                                total_value_gp := 0 }
            Res.ok { p with total_value_gp := round2 (calcParcelValue p coin_values) } rng3
      else
        match lootWeightedChoice rng2 mundane with
        | Res.err e rr => Res.err e rr
        | Res.ok item rng3 =>
          match extractMundaneOut item with
          | Except.error e => Res.err e rng3
          | Except.ok mo =>
            let p : Parcel := { coins := coins, magic_items := [], mundane_items := [mo],
                                total_value_gp := 0 }
            Res.ok { p with total_value_gp := round2 (calcParcelValue p coin_values) } rng3

/-- The `for _ in range(rolls)` loop of `LootGenerator.generate`. -/
def parcelsLoop (coin_values : List (String × ℚ)) (base_budget : ℚ)
    (magicPool mundane : List LootItem) : Nat → Rng → Res (List Parcel)
  | 0, rng => Res.ok [] rng
  | n + 1, rng =>
    match generateParcel rng coin_values base_budget magicPool mundane with
    | Res.err e r => Res.err e r
    | Res.ok p r =>
      match parcelsLoop coin_values base_budget magicPool mundane n r with
      | Res.err e r2 => Res.err e r2
      | Res.ok ps r2 => Res.ok (p :: ps) r2

/-- The `loot.v1` output record. -/
structure LootOutput where
  schema : String
  seed : Int
  encounter_level : Int
  rolls : Int
  parcels : List Parcel

/-- `LootGenerator`: loaded data, the seed, and the seeded stream. -/
structure LootGenerator where
  data : LootData
  seed : Int
  rng : Rng

/-- `LootGenerator.__init__` with an explicit integer seed. -/
def LootGenerator.init (mt : Int → Nat → Nat) (data : LootData) (seed : Int) : LootGenerator :=
  { data := data, seed := seed, rng := Rng.ofSeed mt seed }

/-- `LootGenerator.generate(level, rolls)`: coerce `rolls` to at least 1,
validate the level against `level_budgets_gp` (raising before any draw),
then generate the parcels. -/
def LootGenerator.generate (g : LootGenerator) (level : Int) (rolls : Int) : Res LootOutput :=
  match dictGet (toString level) g.data.level_budgets with
  | none => Res.err PyError.levelBudget g.rng
  | some base_budget =>
    match parcelsLoop g.data.coin_values base_budget
        (filterMagicByLevel g.data.magic_items level) g.data.mundane_goods
        (max 1 rolls).toNat g.rng with
    | Res.err e r => Res.err e r
    | Res.ok parcels r =>
      Res.ok { schema := "loot.v1", seed := g.seed, encounter_level := level,
               rolls := max 1 rolls, parcels := parcels } r

/-- The public `generate_loot` entry point (table loading is I/O glue; the
loaded `loot_data.json` is the `data` argument). -/
def generate_loot (mt : Int → Nat → Nat) (data : LootData)
    (level rolls seed : Int) : Res LootOutput :=
  (LootGenerator.init mt data seed).generate level rolls

/- ----------------------------------------------------------------------
encountergen.py — data model
---------------------------------------------------------------------- -/

/-- One `(min, max) → type` row of an encounter-type table. -/
structure TypeRow where
  min : Option Int
  max : Option Int
  type : Option String

/-- One entry of `encounter_types.json`'s `tables` list. -/
structure TypeTable where
  biomes : Option (List String)
  slots : Option (List String)
  die : Option Int
  rows : Option (List TypeRow)

/-- Never-selected default for `rng.choice` over type tables. -/
def defaultTypeTable : TypeTable :=
  { biomes := none, slots := none, die := none, rows := none }

/-- One slot definition of `five_room_progression.json`. -/
structure SlotDef where
  difficulty_delta : Option Int

/-- One combat template of `encounter_tables.json`'s `encounter_tables`. -/
structure CombatTemplate where
  id : Option String
  biomes : Option (List String)
  slots : Option (List String)
  min_level : Option Int
  max_level : Option Int
  weight : Option ℚ
  factions : Option (List String)
  enemy_group_id : Option String
  environment_tags : Option (List String)
  tags : Option (List String)
  loot_rolls : Option Int
  notes : Option String

/-- The `count` object of an enemy-group entry. -/
structure CountCfg where
  min : Option Int
  max : Option Int

/-- One enemy entry of an enemy group. -/
structure GroupEntry where
  monster_id : Option String
  count : Option CountCfg

/-- One group of `enemy_groups.json`'s `groups`. -/
structure EnemyGroup where
  id : Option String
  faction : Option String
  enemies : Option (List GroupEntry)

/-- One monster of `monsters.json`'s `monsters`. -/
structure Monster where
  id : Option String
  name : Option String
  cr : Option ℚ
  faction : Option String
  tags : Option (List String)

/-- The `weight_modifiers` object of a faction (`biomes` / `slots` maps,
each defaulting to `{}`; values are JSON numbers, so `float()` succeeds). -/
structure FactionMods where
  biomes : List (String × ℚ)
  slots : List (String × ℚ)

/-- One faction of `factions.json`'s `factions`. -/
structure Faction where
  id : Option String
  weight_modifiers : Option FactionMods

/-- One preset of `environment_presets.json`'s `presets`
(`mechanical_effects` is an opaque JSON object, modelled as its items). -/
structure EnvPreset where
  id : Option String
  biomes : Option (List String)
  tags : Option (List String)
  description : Option String
  mechanical_effects : Option (List (String × String))

/-- Never-selected default for `rng.choice` over presets. -/
def defaultPreset : EnvPreset :=
  { id := none, biomes := none, tags := none, description := none,
    mechanical_effects := none }

/-- One entry of a noncombat (puzzle/social/exploration) table. -/
structure NoncombatEntry where
  id : Option String
  biomes : Option (List String)
  slots : Option (List String)
  min_level : Option Int
  max_level : Option Int
  weight : Option ℚ
  environment_preset_id : Option String
  environment_tags : Option (List String)
  tags : Option (List String)
  award_loot : Option Bool
  loot_rolls : Option Int
  notes : Option String

/-- The loaded JSON tables, with each file reduced to the payload the
generator reads (`encounter_types["tables"]`, `five_room_progression`'s
`default_order` and `slots`, `combat_budgets["budgets"]`,
`encounter_tables["encounter_tables"]`, `enemy_groups["groups"]`,
`monsters["monsters"]`, `factions["factions"]`,
`environment_presets["presets"]`, and each noncombat file's `entries`).
A missing optional file loads as `{}`, whose payload is the empty list. -/
structure Tables where
  encounter_types : List TypeTable
  default_order : Option (List String)
  slot_defs : List (String × SlotDef)
  combat_budgets : List (String × ℚ)
  encounter_templates : List CombatTemplate
  enemy_groups : List EnemyGroup
  monsters : List Monster
  factions : List Faction
  environment_presets : List EnvPreset
  puzzle_entries : List NoncombatEntry
  social_entries : List NoncombatEntry
  exploration_entries : List NoncombatEntry

/-- The generation context of an `EncounterGenerator` besides its stream:
the loaded tables, the loot data its loot sub-calls load, the pseudo-random
algorithm used to seed sub-generators, and the generator's own seed. -/
structure Ctx where
  tables : Tables
  loot_data : LootData
  mt : Int → Nat → Nat
  seed : Int

/-- `_index_by_id` lookup over monsters: keeps entries whose id is a
string; a duplicated id keeps the last occurrence. -/
def lookupMonster (ts : Tables) (mid : String) : Option Monster :=
  (ts.monsters.filter fun m => decide (m.id = some mid)).getLast?

/-- `_index_by_id` lookup over enemy groups. -/
def lookupGroup (ts : Tables) (gid : String) : Option EnemyGroup :=
  (ts.enemy_groups.filter fun g => decide (g.id = some gid)).getLast?

/-- `_index_by_id` lookup over factions. -/
def lookupFaction (ts : Tables) (fid : String) : Option Faction :=
  (ts.factions.filter fun f => decide (f.id = some fid)).getLast?

/-- `_index_by_id` lookup over environment presets. -/
def lookupEnv (ts : Tables) (eid : String) : Option EnvPreset :=
  (ts.environment_presets.filter fun e => decide (e.id = some eid)).getLast?

/-- `xs.get("biomes") or ["any"]` followed by the membership test
`"any" in l or x in l` (a missing, null or empty list means `["any"]`). -/
def gateAny (o : Option (List String)) (x : String) : Bool :=
  match o with
  | none => true
  | some [] => true
  | some l => l.contains "any" || l.contains x

/- ----------------------------------------------------------------------
encountergen.py — utility and selection
---------------------------------------------------------------------- -/

/-- `_clamp_level`'s key parse: `int(k)` over the budget keys, the whole
list collapsing to `[]` if any key fails to parse. -/
def budgetKeys (budgets : List (String × ℚ)) : List Int :=
  if budgets.all fun p => (p.1.toInt?).isSome then
    budgets.filterMap fun p => p.1.toInt?
  else []

/-- `_clamp_level`: clamp to the min/max integer keys of the budget table,
or to at least 1 when there are no keys. -/
def clampLevel (level : Int) (budgets : List (String × ℚ)) : Int :=
  match budgetKeys budgets with
  | [] => max 1 level
  | k :: ks =>
    let minL := ks.foldl min k
    let maxL := ks.foldl max k
    if level < minL then minL else if level > maxL then maxL else level

/-- The accumulation loop of encountergen's `_weighted_choice`: clamped
weights are accumulated in order and the first candidate whose cumulative
weight reaches the draw is returned. -/
def pickAcc (x : ℚ) (acc : ℚ) : List (α × ℚ) → Option α
  | [] => none
  | p :: rest =>
    if x ≤ acc + max 0 p.2 then some p.1 else pickAcc x (acc + max 0 p.2) rest

/-- encountergen's `_weighted_choice`: sum the clamped weights; a
non-positive total returns `items[0][0]` without a draw (raising
`IndexError` on an empty list); otherwise one uniform draw scaled by the
total selects by cumulative weights, falling back to `items[-1][0]`. -/
def encWeightedChoice (rng : Rng) (items : List (α × ℚ)) : Res α :=
  match items with
  | [] => Res.err PyError.indexError rng
  | p :: rest =>
    if (items.map fun q => max 0 q.2).sum ≤ 0 then Res.ok p.1 rng
    else
      let (r, rng') := rng.randFloat
      match pickAcc (r * (items.map fun q => max 0 q.2).sum) 0 (p :: rest) with
      | some a => Res.ok a rng'
      | none => Res.ok (rest.getLastD p).1 rng'

/-- The row scan of `_choose_encounter_type`: first row whose
`[int(row.get("min", row.get("max", 1))), int(row.get("max", rmin))]` range
contains the roll gives its type; otherwise `"combat"`. -/
def rowsType (roll : Int) : List TypeRow → String
  | [] => "combat"
  | row :: rest =>
    if row.min.getD (row.max.getD 1) ≤ roll ∧
        roll ≤ row.max.getD (row.min.getD (row.max.getD 1)) then
      (row.type.getD "combat")
    else rowsType roll rest

/-- `_choose_encounter_type`: filter the type tables by biome/slot (falling
back to all tables), pick one uniformly, roll its die (default d20,
coerced to at least 1), and map the roll through the rows. -/
def chooseEncounterType (ts : Tables) (rng : Rng) (slot biome : String) : String × Rng :=
  if ts.encounter_types.isEmpty then ("combat", rng)
  else
    match listChoice rng
        (let cands := ts.encounter_types.filter fun t =>
          gateAny t.biomes biome && gateAny t.slots slot
         if cands.isEmpty then ts.encounter_types else cands)
        defaultTypeTable with
    | (table, rng1) =>
      match rng1.randint 1 (max 1 (table.die.getD 20)) with
      | (roll, rng2) => (rowsType roll (table.rows.getD []), rng2)

/- ----------------------------------------------------------------------
encountergen.py — core generator
---------------------------------------------------------------------- -/

/-- The multiplier contribution of one faction id in
`_compute_faction_weight`: an unresolved faction contributes nothing, and a
biome/slot key present in the faction's modifier maps multiplies in. -/
def factionFactor (ts : Tables) (slot biome : String) (w : ℚ) (fid : String) : ℚ :=
  match lookupFaction ts fid with
  | none => w
  | some f =>
    let mods := f.weight_modifiers.getD { biomes := [], slots := [] }
    let w1 := match dictGet biome mods.biomes with
      | some m => w * m
      | none => w
    match dictGet slot mods.slots with
    | some m => w1 * m
    | none => w1

/-- `_compute_faction_weight`: 1.0 when the template lists no factions or
the faction index is empty; otherwise multiply the applicable modifiers,
resetting a non-positive product to 1.0. -/
def computeFactionWeight (ts : Tables) (tpl : CombatTemplate) (slot biome : String) : ℚ :=
  if (tpl.factions.getD []).isEmpty
      || (ts.factions.filter fun f => f.id.isSome).isEmpty then 1
  else
    let w := (tpl.factions.getD []).foldl (factionFactor ts slot biome) 1
    if 0 < w then w else 1

/-- The environment descriptor as `_select_environment` returns it. -/
structure EnvOut where
  preset_id : Option String
  description : String
  tags : List String
  mechanical_effects : List (String × String)

/-- The neutral environment returned when no presets are configured. -/
def neutralEnv : EnvOut :=
  { preset_id := none, description := "", tags := [], mechanical_effects := [] }

/-- The descriptor built from a chosen preset. -/
def envFromPreset (e : EnvPreset) : EnvOut :=
  { preset_id := e.id, description := e.description.getD "",
    tags := e.tags.getD [], mechanical_effects := e.mechanical_effects.getD [] }

/-- `_select_environment`: neutral when no presets exist; a truthy
`specific_id` that resolves is returned directly; otherwise filter by biome
and tag overlap (`not tags or any(...)`), fall back to all presets, and
pick uniformly. -/
def selectEnvironment (ts : Tables) (rng : Rng) (biome : String) (tags : List String)
    (specific_id : Option String) : EnvOut × Rng :=
  if ts.environment_presets.isEmpty then (neutralEnv, rng)
  else
    match (match specific_id with
           | some sid => if sid = "" then none else lookupEnv ts sid
           | none => none) with
    | some e => (envFromPreset e, rng)
    | none =>
      match listChoice rng
          (let cands := ts.environment_presets.filter fun e =>
            gateAny e.biomes biome &&
              (tags.isEmpty || tags.any fun t => (e.tags.getD []).contains t)
           if cands.isEmpty then ts.environment_presets else cands)
          defaultPreset with
      | (e, rng') => (envFromPreset e, rng')

/-- One enemy entry of an encounter's `enemies` list. -/
structure EnemyOut where
  monster_id : Option String
  name : Option String
  count : Int
  cr : Option ℚ
  faction : Option String
  tags : List String

/-- The count draw for one enemy entry:
`randint(int(count.get("min", 1)), int(count.get("max", cmin)))` with the
max coerced up to the min when inverted. -/
def entryCount (entry : GroupEntry) (rng : Rng) : Int × Rng :=
  let cfg := entry.count.getD { min := none, max := none }
  let cmin := cfg.min.getD 1
  let cmax := if cfg.max.getD cmin < cmin then cmin else cfg.max.getD cmin
  rng.randint cmin cmax

/-- The enemy record built for one kept entry, resolving monster metadata
by id (`name` defaulting to the raw id, `faction` to the group's, `tags`
and `cr` to empty/none). -/
def enemyRecord (ts : Tables) (groupFaction : Option String) (entry : GroupEntry)
    (count : Int) : EnemyOut :=
  let monsterOpt := match entry.monster_id with
    | some mid => lookupMonster ts mid
    | none => none
  { monster_id := entry.monster_id
    name := match monsterOpt with
      | some m => match m.name with
        | some n => some n
        | none => entry.monster_id
      | none => entry.monster_id
    count := count
    cr := monsterOpt.bind fun m => m.cr
    faction := match monsterOpt with
      | some m => match m.faction with
        | some f => some f
        | none => groupFaction
      | none => groupFaction
    tags := (monsterOpt.bind fun m => m.tags).getD [] }

/-- The entry loop of `_instantiate_enemy_group`: per entry draw a uniform
count (consuming the draw either way), skip non-positive counts, and emit
the resolved enemy record otherwise. -/
def instantiateEntries (ts : Tables) (groupFaction : Option String) (rng : Rng) :
    List GroupEntry → List EnemyOut × Rng
  | [] => ([], rng)
  | entry :: rest =>
    if (entryCount entry rng).1 ≤ 0 then
      instantiateEntries ts groupFaction (entryCount entry rng).2 rest
    else
      (enemyRecord ts groupFaction entry (entryCount entry rng).1 ::
        (instantiateEntries ts groupFaction (entryCount entry rng).2 rest).1,
       (instantiateEntries ts groupFaction (entryCount entry rng).2 rest).2)

/-- `_instantiate_enemy_group`: a falsy (missing or empty) group id and an
unresolvable group id are hard failures; otherwise run the entry loop. -/
def instantiateEnemyGroup (ts : Tables) (group_id : Option String) (room_level : Int)
    (rng : Rng) : Res (List EnemyOut) :=
  match group_id with
  | none => Res.err PyError.missingGroupId rng
  | some gid =>
    if gid = "" then Res.err PyError.missingGroupId rng
    else
      match lookupGroup ts gid with
      | none => Res.err PyError.groupNotFound rng
      | some group =>
        match instantiateEntries ts group.faction rng (group.enemies.getD []) with
        | (out, rng') => Res.ok out rng'

/-- The deduplication `list(set(a + b))` of tag merging, modelled
deterministically as first-occurrence deduplication. -/
def dedupAux (seen : List String) : List String → List String
  | [] => []
  | x :: rest =>
    if seen.contains x then dedupAux seen rest
    else x :: dedupAux (x :: seen) rest

/-- Merged, deduplicated tag set of a template and its environment. -/
def dedupTags (l : List String) : List String := dedupAux [] l

/-- The `meta` object of an encounter. -/
structure Meta where
  template_id : Option String
  noncombat_id : Option String
  notes : String

/-- The standard encounter record. -/
structure Encounter where
  difficulty : Int
  type : String
  slot : String
  biome : String
  enemies : List EnemyOut
  environment : EnvOut
  tags : List String
  loot : Option LootOutput
  meta : Meta

/-- The dict keys of the encounter record as the Python code builds it, in
source order (constant by construction of the embedding). -/
def encounterKeys (e : Encounter) : List String :=
  ["difficulty", "type", "slot", "biome", "enemies", "environment", "tags", "loot", "meta"]

/-- The dict keys of the `meta` object, in source order. -/
def metaKeys (m : Meta) : List String :=
  ["template_id", "noncombat_id", "notes"]

/-- `_generate_empty_encounter`: the fixed-shape terminal fallback. -/
def emptyEncounter (level : Int) (biome slot : String) : Encounter :=
  { difficulty := level, type := "empty", slot := slot, biome := biome,
    enemies := [], environment := neutralEnv, tags := [], loot := none,
    meta := { template_id := none, noncombat_id := none, notes := "" } }

/-- The biome/slot/level filter of `_generate_combat_encounter` over the
combat templates, with level defaults 1 and 99. -/
def filterCombatTemplates (templates : List CombatTemplate) (level : Int)
    (biome slot : String) : List CombatTemplate :=
  templates.filter fun tpl =>
    gateAny tpl.biomes biome && gateAny tpl.slots slot &&
      decide (tpl.min_level.getD 1 ≤ level) && decide (level ≤ tpl.max_level.getD 99)

/-- The clamped-to-zero weight of one candidate template
(`weight if weight > 0 else 0.0`). -/
def templateWeight (ts : Tables) (tpl : CombatTemplate) (slot biome : String) : ℚ :=
  if 0 < tpl.weight.getD 1 * computeFactionWeight ts tpl slot biome then
    tpl.weight.getD 1 * computeFactionWeight ts tpl slot biome
  else 0

/-- `_generate_combat_encounter`: hard failure on an empty template pool or
an empty filtered pool; otherwise weighted template selection, enemy-group
instantiation, environment selection, tag merge, and a loot sub-call seeded
from a fresh draw. -/
def generateCombat (ctx : Ctx) (level : Int) (biome slot : String) (rng : Rng) :
    Res Encounter :=
  if ctx.tables.encounter_templates.isEmpty then Res.err PyError.noTemplates rng
  else
    if (filterCombatTemplates ctx.tables.encounter_templates level biome slot).isEmpty then
      Res.err PyError.noCandidates rng
    else
      match encWeightedChoice rng
          ((filterCombatTemplates ctx.tables.encounter_templates level biome slot).map
            fun tpl => (tpl, templateWeight ctx.tables tpl slot biome)) with
      | Res.err e r => Res.err e r
      | Res.ok template rng1 =>
        match instantiateEnemyGroup ctx.tables template.enemy_group_id level rng1 with
        | Res.err e r => Res.err e r
        | Res.ok enemies rng2 =>
          match selectEnvironment ctx.tables rng2 biome (template.environment_tags.getD []) none with
          | (env, rng3) =>
            match rng3.randint 0 999999 with
            | (subseed, rng4) =>
              match generate_loot ctx.mt ctx.loot_data level (template.loot_rolls.getD 1) subseed with
              | Res.err e _ => Res.err e rng4
              | Res.ok loot _ =>
                Res.ok { difficulty := level, type := "combat", slot := slot, biome := biome,
                         enemies := enemies, environment := env,
                         tags := dedupTags (template.tags.getD [] ++ env.tags),
                         loot := some loot,
                         meta := { template_id := template.id, noncombat_id := none,
                                   notes := template.notes.getD "" } } rng4

/-- The noncombat table selected by encounter type (`none` models the
`else` branch for a type with no table). -/
def noncombatTable (ts : Tables) (enc_type : String) : Option (List NoncombatEntry) :=
  if enc_type = "puzzle" then some ts.puzzle_entries
  else if enc_type = "social" then some ts.social_entries
  else if enc_type = "exploration" then some ts.exploration_entries
  else none

/-- The biome/slot/level filter of `_generate_noncombat_encounter`, with
level defaults 1 and 99. -/
def filterNoncombat (entries : List NoncombatEntry) (level : Int)
    (biome slot : String) : List NoncombatEntry :=
  entries.filter fun tpl =>
    gateAny tpl.biomes biome && gateAny tpl.slots slot &&
      decide (tpl.min_level.getD 1 ≤ level) && decide (level ≤ tpl.max_level.getD 99)

/-- The encounter record a noncombat template produces. -/
def noncombatRecord (level : Int) (biome slot enc_type : String)
    (env : EnvOut) (tags : List String) (loot : Option LootOutput)
    (template : NoncombatEntry) : Encounter :=
  { difficulty := level, type := enc_type, slot := slot, biome := biome,
    enemies := [], environment := env, tags := tags, loot := loot,
    meta := { template_id := none, noncombat_id := template.id,
              notes := template.notes.getD "" } }

/-- `_generate_noncombat_encounter`: an unknown type, an absent/empty table
or an empty filtered pool silently degrades to the empty encounter;
otherwise weighted selection (no faction modifiers), environment selection
honouring the template's preset id, tag merge, and loot only when
`award_loot` is truthy. -/
def generateNoncombat (ctx : Ctx) (level : Int) (biome slot enc_type : String)
    (rng : Rng) : Res Encounter :=
  match noncombatTable ctx.tables enc_type with
  | none => Res.ok (emptyEncounter level biome slot) rng
  | some entries =>
    if entries.isEmpty then Res.ok (emptyEncounter level biome slot) rng
    else
      if (filterNoncombat entries level biome slot).isEmpty then
        Res.ok (emptyEncounter level biome slot) rng
      else
        match encWeightedChoice rng
            ((filterNoncombat entries level biome slot).map
              fun tpl => (tpl, tpl.weight.getD 1)) with
        | Res.err e r => Res.err e r
        | Res.ok template rng1 =>
          match selectEnvironment ctx.tables rng1 biome (template.environment_tags.getD [])
              template.environment_preset_id with
          | (env, rng2) =>
            if template.award_loot.getD false then
              match rng2.randint 0 999999 with
              | (subseed, rng3) =>
                match generate_loot ctx.mt ctx.loot_data level (template.loot_rolls.getD 1) subseed with
                | Res.err e _ => Res.err e rng3
                | Res.ok loot _ =>
                  Res.ok (noncombatRecord level biome slot enc_type env
                    (dedupTags (template.tags.getD [] ++ env.tags)) (some loot) template) rng3
            else
              Res.ok (noncombatRecord level biome slot enc_type env
                (dedupTags (template.tags.getD [] ++ env.tags)) none template) rng2

/-- `_generate_encounter_internal`: choose the encounter type, then
dispatch to combat / noncombat / empty generation. -/
def generateEncounterInternal (ctx : Ctx) (level : Int) (biome slot : String)
    (rng : Rng) : Res Encounter :=
  match chooseEncounterType ctx.tables rng slot biome with
  | (enc_type, rng1) =>
    if enc_type = "combat" then generateCombat ctx level biome slot rng1
    else if enc_type = "puzzle" ∨ enc_type = "social" ∨ enc_type = "exploration" then
      generateNoncombat ctx level biome slot enc_type rng1
    else Res.ok (emptyEncounter level biome slot) rng1

/-- The `encounter.v1` wrapper of `generate_single_encounter`. -/
structure SingleOut where
  schema : String
  seed : Int
  encounter : Encounter

/-- `EncounterGenerator.generate_single_encounter`: the internal encounter
wrapped with schema and seed. -/
def generateSingleEncounter (ctx : Ctx) (level : Int) (biome slot : String)
    (rng : Rng) : Res SingleOut :=
  match generateEncounterInternal ctx level biome slot rng with
  | Res.err e r => Res.err e r
  | Res.ok enc r => Res.ok { schema := "encounter.v1", seed := ctx.seed, encounter := enc } r

/-- One room of a five-room dungeon. -/
structure Room where
  slot : String
  room_index : Nat
  encounter : Encounter

/-- The `dungeon.5room.v1` output record. -/
structure Dungeon where
  schema : String
  seed : Int
  biome : String
  base_level : Int
  rooms : List Room

/-- The per-room level: base level plus the slot's configured difficulty
delta, clamped to the budget-table keys. -/
def roomLevel (ctx : Ctx) (base_level : Int) (slot : String) : Int :=
  clampLevel (base_level + ((dictGet slot ctx.tables.slot_defs).getD
    { difficulty_delta := none }).difficulty_delta.getD 0) ctx.tables.combat_budgets

/-- The slot list used by `generate_five_room_dungeon`: the caller's
override, else a non-empty configured `default_order`, else the slot
definitions' keys. -/
def resolveSlots (ts : Tables) (slotsArg : Option (List String)) : List String :=
  match slotsArg with
  | some s => s
  | none =>
    match ts.default_order with
    | some l => if l.isEmpty then ts.slot_defs.map fun p => p.1 else l
    | none => ts.slot_defs.map fun p => p.1

/-- The `for idx, slot in enumerate(slots, start=1)` loop of
`generate_five_room_dungeon`, threading one shared stream. -/
def roomsLoop (ctx : Ctx) (base_level : Int) (biome : String) :
    List String → Nat → Rng → Res (List Room)
  | [], _, rng => Res.ok [] rng
  | slot :: rest, idx, rng =>
    match generateEncounterInternal ctx (roomLevel ctx base_level slot) biome slot rng with
    | Res.err e r => Res.err e r
    | Res.ok enc r =>
      match roomsLoop ctx base_level biome rest (idx + 1) r with
      | Res.err e r2 => Res.err e r2
      | Res.ok rooms r2 =>
        Res.ok ({ slot := slot, room_index := idx, encounter := enc } :: rooms) r2

/-- `EncounterGenerator.generate_five_room_dungeon`. -/
def generateFiveRoomDungeon (ctx : Ctx) (base_level : Int) (biome : String)
    (slotsArg : Option (List String)) (rng : Rng) : Res Dungeon :=
  match roomsLoop ctx base_level biome (resolveSlots ctx.tables slotsArg) 1 rng with
  | Res.err e r => Res.err e r
  | Res.ok rooms r =>
    Res.ok { schema := "dungeon.5room.v1", seed := ctx.seed, biome := biome,
             base_level := base_level, rooms := rooms } r

/-- Modelled from the spec: "dungeon generation equals sequential
single-encounter calls sharing one random stream" — the fold of
`_generate_encounter_internal` over the slot list at the clamped per-room
levels, threading one stream, without room assembly. -/
def seqEncounters (ctx : Ctx) (base_level : Int) (biome : String) :
    List String → Rng → Res (List Encounter)
  | [], rng => Res.ok [] rng
  | slot :: rest, rng =>
    match generateEncounterInternal ctx (roomLevel ctx base_level slot) biome slot rng with
    | Res.err e r => Res.err e r
    | Res.ok enc r =>
      match seqEncounters ctx base_level biome rest r with
      | Res.err e r2 => Res.err e r2
      | Res.ok encs r2 => Res.ok (enc :: encs) r2

/-- The public `generate_single_encounter` entry point: a fresh generator
seeded from `seed`, then one encounter. -/
def generate_single_encounter_entry (ctx : Ctx) (level : Int) (biome slot : String) :
    Res SingleOut :=
  generateSingleEncounter ctx level biome slot (Rng.ofSeed ctx.mt ctx.seed)

/-- The public `generate_five_room_dungeon` entry point: a fresh generator
seeded from `seed`, then the five-room orchestration with the default slot
order. -/
def generate_five_room_dungeon_entry (ctx : Ctx) (base_level : Int) (biome : String) :
    Res Dungeon :=
  generateFiveRoomDungeon ctx base_level biome none (Rng.ofSeed ctx.mt ctx.seed)

/- ----------------------------------------------------------------------
Shared fixtures for concrete evaluations
---------------------------------------------------------------------- -/

/-- A concrete all-zeros stream at position 0. -/
def rng0 : Rng := { stream := fun _ => 0, pos := 0 }

/-- A loot item with weight 0 and no other keys. -/
def zeroWeightItem : LootItem := { emptyLootItem with weight := some 0 }

/-- A loot item gated to levels 5..10 via explicit `min_level`/`max_level`. -/
def gatedItem : LootItem :=
  { emptyLootItem with min_level := some 5, max_level := some 10 }

/-- Empty loaded tables (every optional file missing, every payload
empty). -/
def emptyTables : Tables :=
  { encounter_types := [], default_order := none, slot_defs := [],
    combat_budgets := [], encounter_templates := [], enemy_groups := [],
    monsters := [], factions := [], environment_presets := [],
    puzzle_entries := [], social_entries := [], exploration_entries := [] }

/-- Empty loot tables. -/
def emptyLootData : LootData :=
  { coin_values := [], level_budgets := [], magic_items := [], mundane_goods := [] }

/-- A trivially concrete pseudo-random algorithm for witnesses. -/
def mt0 : Int → Nat → Nat := fun _ _ => 0

/-- A combat template gated to exactly level 5. -/
def gatedTemplate : CombatTemplate :=
  { id := none, biomes := none, slots := none, min_level := some 5,
    max_level := some 5, weight := none, factions := none,
    enemy_group_id := none, environment_tags := none, tags := none,
    loot_rolls := none, notes := none }

/-- Context whose only combat template is gated to level 5. -/
def ctx5 : Ctx :=
  { tables := { emptyTables with encounter_templates := [gatedTemplate] },
    loot_data := emptyLootData, mt := mt0, seed := 0 }

/-- Context with all-empty tables. -/
def ctx9 : Ctx :=
  { tables := emptyTables, loot_data := emptyLootData, mt := mt0, seed := 0 }

/-- A type table whose d20 rows all route to the `"empty"` type. -/
def emptyRouteTable : TypeTable :=
  { biomes := none, slots := none, die := none,
    rows := some [{ min := some 1, max := some 20, type := some "empty" }] }

/-- Context whose encounter-type table always selects `"empty"`. -/
def ctx10 : Ctx :=
  { tables := { emptyTables with encounter_types := [emptyRouteTable] },
    loot_data := emptyLootData, mt := mt0, seed := 0 }

/-- Loot data with a single budget entry for level 1. -/
def lootData4 : LootData :=
  { coin_values := [("gold", 1)], level_budgets := [("1", 10)],
    magic_items := [], mundane_goods := [] }

/-- A generator over `lootData4` with an arbitrary advanced stream. -/
def gen4 : LootGenerator := { data := lootData4, seed := 7, rng := rng0 }

/-- Ghost trace of the `remaining` variable of `_generate_coins`' loop,
mirroring the loop's branches and draws exactly: the trace records
`remaining` at each visited denomination and ends where the loop breaks,
raises, or runs out of denominations. -/
def remTrace (rng : Rng) (remaining : ℚ) : List (String × ℚ) → List ℚ
  | [] => [remaining]
  | (coin, value) :: rest =>
    if remaining ≤ 0 then [remaining]
    else if value = 0 then [remaining]
    else if ratTrunc (remaining / value) ≤ 0 then remaining :: remTrace rng remaining rest
    else
      if 0 < (rng.randint 0 (ratTrunc (remaining / value))).1 then
        remaining ::
          remTrace (rng.randint 0 (ratTrunc (remaining / value))).2
            (remaining - (rng.randint 0 (ratTrunc (remaining / value))).1 * value) rest
      else remaining :: remTrace (rng.randint 0 (ratTrunc (remaining / value))).2 remaining rest

/-- A two-denomination coin table. -/
def cv7 : List (String × ℚ) := [("gold", 1), ("silver", 1 / 10)]

/-- A mundane item carrying `id` and `gp_value` but no `name` key. -/
def noNameItem : LootItem :=
  { id := some "rope", name := none, gp_value := some 5, weight := none,
    rarity := none, min_level := none, max_level := none }

/-- Loot data whose only mundane item lacks its `name` key. -/
def lootData8 : LootData :=
  { coin_values := [("gold", 1)], level_budgets := [("1", 10)],
    magic_items := [], mundane_goods := [noNameItem] }

/-- A generator over `lootData8`. -/
def gen8 : LootGenerator := { data := lootData8, seed := 0, rng := rng0 }

/-- A mundane item with all three mandatory keys and no optional keys. -/
def fullItem : LootItem :=
  { id := some "rope", name := some "Rope", gp_value := some 5, weight := none,
    rarity := none, min_level := none, max_level := none }

/-- Loot data whose mundane item carries only mandatory keys. -/
def lootData8b : LootData :=
  { coin_values := [("gold", 1)], level_budgets := [("1", 10)],
    magic_items := [], mundane_goods := [fullItem] }

/-- A generator over `lootData8b`. -/
def gen8b : LootGenerator := { data := lootData8b, seed := 0, rng := rng0 }

/- ----------------------------------------------------------------------
C1 — determinism of the entry points
---------------------------------------------------------------------- -/

/-- C1: for fixed tables, pseudo-random algorithm, seed and inputs, two
independent runs of each generation entry point (loot, single encounter,
five-room dungeon) produce identical output records — in the embedding the
entry points are pure functions of exactly those arguments, and each run
reconstructs the generator state from the seed alone. -/
theorem c1_determinism : ∀ (mt : Int → Nat → Nat) (data : LootData) (ctx : Ctx)
    (level rolls seed base_level : Int) (biome slot : String),
    generate_loot mt data level rolls seed = generate_loot mt data level rolls seed ∧
    generate_single_encounter_entry ctx level biome slot =
      generate_single_encounter_entry ctx level biome slot ∧
    generate_five_room_dungeon_entry ctx base_level biome =
      generate_five_room_dungeon_entry ctx base_level biome :=
  fun _ _ _ _ _ _ _ _ _ => ⟨rfl, rfl, rfl⟩

/- ----------------------------------------------------------------------
C2 — weighted selection with non-positive total weight
---------------------------------------------------------------------- -/

/-- C2 counterexample: the claim asserts that the weighted selector used by
loot generation also returns the first candidate on an all-zero weight
list; in fact lootgen's `_weighted_choice` delegates to `random.choices`,
which raises `ValueError("Total of weights must be greater than zero")` on
the singleton list with weight 0. -/
theorem c2_counterexample :
    lootWeightedChoice rng0 [zeroWeightItem] = Res.err PyError.choicesTotal rng0 := by
  simp [lootWeightedChoice, zeroWeightItem, emptyLootItem]

/-- C2 (amended): for a non-empty candidate list whose weights are all ≤ 0
(in particular all zero), the selector used by encounter generation returns
the first candidate deterministically and without error (and without
consuming a draw); the selector used by loot generation instead raises
`ValueError` from `random.choices` whenever the weight total is ≤ 0. -/
theorem c2_amended :
    (∀ (α : Type) (items : List (α × ℚ)) (rng : Rng) (h : items ≠ [])
      (hw : ∀ p ∈ items, p.2 ≤ 0),
      encWeightedChoice rng items = Res.ok (items.head h).1 rng) ∧
    (∀ (items : List LootItem) (rng : Rng), items ≠ [] →
      (items.map fun it => it.weight.getD 1).sum ≤ 0 →
      lootWeightedChoice rng items = Res.err PyError.choicesTotal rng) := by
  constructor
  · intro α items rng h hw
    match items with
    | p :: rest =>
      have hz : (((p :: rest).map fun q => max 0 q.2).sum : ℚ) = 0 := by
        apply List.sum_eq_zero
        intro x hx
        simp only [List.mem_map] at hx
        obtain ⟨q, hq, rfl⟩ := hx
        exact max_eq_left (hw q hq)
      simp only [encWeightedChoice, List.head_cons]
      rw [if_pos (le_of_eq hz)]
  · intro items rng h ht
    have : items.isEmpty = false := by
      cases items with
      | nil => exact absurd rfl h
      | cons a l => rfl
    simp [lootWeightedChoice, this, ht]

/-- Witness for C2 (amended), at a two-element all-zero-weight list for the
encounter selector and a singleton zero-weight list for the loot
selector. -/
theorem c2_amended_witness :
    encWeightedChoice rng0 [((1 : Nat), (0 : ℚ)), ((2 : Nat), (0 : ℚ))] =
      Res.ok 1 rng0 ∧
    lootWeightedChoice (Rng.mk (fun _ => 0) 1) [zeroWeightItem] =
      Res.err PyError.choicesTotal (Rng.mk (fun _ => 0) 1) :=
  ⟨c2_amended.1 Nat [((1 : Nat), (0 : ℚ)), ((2 : Nat), (0 : ℚ))] rng0 (by simp)
      (by
        intro p hp
        simp only [List.mem_cons, List.mem_singleton, List.not_mem_nil, or_false] at hp
        rcases hp with rfl | rfl <;> norm_num),
    c2_amended.2 [zeroWeightItem] (Rng.mk (fun _ => 0) 1) (by simp)
      (by simp [zeroWeightItem, emptyLootItem])⟩

/- ----------------------------------------------------------------------
C6 — level gating defaults
---------------------------------------------------------------------- -/

/-- C6 counterexample: the claim asserts a default `max_level` of 99 for
magic items, so an item with no `max_level` key would be kept at every
level up to 99; `_filter_magic_by_level` actually defaults `max_level` to
20, so the bare item is dropped at level 21. -/
theorem c6_counterexample : filterMagicByLevel [emptyLootItem] 21 = [] := rfl

/-- C6 (amended): each candidate filter keeps a gated entry iff it passes
its categorical gates and `min_level ≤ level ≤ max_level`, where
`min_level` defaults to 1 in all three filters, and `max_level` defaults to
20 for magic items but to 99 for combat and noncombat templates; an entry
with `min_level=5, max_level=10` is excluded at levels 4 and 11 and
included at 5, 7 and 10. -/
theorem c6_amended :
    (∀ (items : List LootItem) (level : Int) (it : LootItem),
      it ∈ filterMagicByLevel items level ↔
        it ∈ items ∧ it.min_level.getD 1 ≤ level ∧ level ≤ it.max_level.getD 20) ∧
    (∀ (tpls : List CombatTemplate) (level : Int) (biome slot : String)
      (tpl : CombatTemplate),
      tpl ∈ filterCombatTemplates tpls level biome slot ↔
        tpl ∈ tpls ∧ gateAny tpl.biomes biome = true ∧ gateAny tpl.slots slot = true ∧
          tpl.min_level.getD 1 ≤ level ∧ level ≤ tpl.max_level.getD 99) ∧
    (∀ (entries : List NoncombatEntry) (level : Int) (biome slot : String)
      (e : NoncombatEntry),
      e ∈ filterNoncombat entries level biome slot ↔
        e ∈ entries ∧ gateAny e.biomes biome = true ∧ gateAny e.slots slot = true ∧
          e.min_level.getD 1 ≤ level ∧ level ≤ e.max_level.getD 99) ∧
    filterMagicByLevel [gatedItem] 4 = [] ∧
    filterMagicByLevel [gatedItem] 11 = [] ∧
    filterMagicByLevel [gatedItem] 5 = [gatedItem] ∧
    filterMagicByLevel [gatedItem] 7 = [gatedItem] ∧
    filterMagicByLevel [gatedItem] 10 = [gatedItem] := by
  refine ⟨?_, ?_, ?_, rfl, rfl, rfl, rfl, rfl⟩
  · intro items level it
    simp [filterMagicByLevel, List.mem_filter, and_assoc]
  · intro tpls level biome slot tpl
    simp [filterCombatTemplates, List.mem_filter, and_assoc]
  · intro entries level biome slot e
    simp [filterNoncombat, List.mem_filter, and_assoc]

/-- Witness for C6 (amended): the gated 5..10 item is a member of the
filtered pool at level 7. -/
theorem c6_amended_witness : gatedItem ∈ filterMagicByLevel [gatedItem] 7 :=
  (c6_amended.1 [gatedItem] 7 gatedItem).mpr
    ⟨List.mem_singleton.mpr rfl, by decide, by decide⟩

/- ----------------------------------------------------------------------
C3 — dungeon generation refines sequential single-encounter calls
---------------------------------------------------------------------- -/

/-- The dungeon room loop equals the sequential encounter fold zipped with
its slot and 1-based room index. -/
theorem roomsLoop_eq_seqEncounters (ctx : Ctx) (base_level : Int) (biome : String) :
    ∀ (slots : List String) (idx : Nat) (rng : Rng),
    roomsLoop ctx base_level biome slots idx rng =
      Res.map (fun encs =>
          List.zipWith (fun (p : String × Nat) e =>
            ({ slot := p.1, room_index := p.2, encounter := e } : Room))
            (slots.zip (List.range' idx slots.length)) encs)
        (seqEncounters ctx base_level biome slots rng)
  | [], idx, rng => rfl
  | slot :: rest, idx, rng => by
    simp only [roomsLoop, seqEncounters]
    cases hE : generateEncounterInternal ctx (roomLevel ctx base_level slot) biome slot rng with
    | err e r => simp [Res.map]
    | ok enc r =>
      dsimp only
      rw [roomsLoop_eq_seqEncounters ctx base_level biome rest (idx + 1) r]
      cases hS : seqEncounters ctx base_level biome rest r with
      | err e r2 => simp [Res.map]
      | ok encs r2 => simp [Res.map, List.range']

/-- C3: for every base level, biome, seed-derived stream and slot-list
argument, `generate_five_room_dungeon` produces exactly the rooms obtained
by folding `_generate_encounter_internal` sequentially over the resolved
slot list at the clamped per-room levels with one shared stream
(`seqEncounters`), each room binding its slot and the 1-based index
`1..N` in slot order; and single-encounter generation is that same
internal call wrapped with schema and seed, so room N's encounter equals
the single-encounter call made with the stream in the same position. -/
theorem c3_dungeon_refinement :
    (∀ (ctx : Ctx) (base_level : Int) (biome : String)
      (slotsArg : Option (List String)) (rng : Rng),
      generateFiveRoomDungeon ctx base_level biome slotsArg rng =
        Res.map (fun encs =>
            ({ schema := "dungeon.5room.v1", seed := ctx.seed, biome := biome,
               base_level := base_level,
               rooms := List.zipWith (fun (p : String × Nat) e =>
                   ({ slot := p.1, room_index := p.2, encounter := e } : Room))
                 ((resolveSlots ctx.tables slotsArg).zip
                   (List.range' 1 (resolveSlots ctx.tables slotsArg).length)) encs } : Dungeon))
          (seqEncounters ctx base_level biome (resolveSlots ctx.tables slotsArg) rng)) ∧
    (∀ (ctx : Ctx) (level : Int) (biome slot : String) (rng : Rng),
      generateSingleEncounter ctx level biome slot rng =
        Res.map (fun enc =>
            ({ schema := "encounter.v1", seed := ctx.seed, encounter := enc } : SingleOut))
          (generateEncounterInternal ctx level biome slot rng)) := by
  constructor
  · intro ctx base_level biome slotsArg rng
    simp only [generateFiveRoomDungeon]
    rw [roomsLoop_eq_seqEncounters]
    cases hS : seqEncounters ctx base_level biome (resolveSlots ctx.tables slotsArg) rng with
    | err e r => simp [Res.map]
    | ok encs r => simp [Res.map]
  · intro ctx level biome slot rng
    simp only [generateSingleEncounter]
    cases hE : generateEncounterInternal ctx level biome slot rng with
    | err e r => simp [Res.map]
    | ok enc r => simp [Res.map]

/- ----------------------------------------------------------------------
C5 — combat generation fails hard on an empty candidate pool
---------------------------------------------------------------------- -/

/-- C5: whenever the biome/slot/level filter over the combat template pool
yields no candidate, `_generate_combat_encounter` raises — the
`NoCandidatesError` `ValueError` when the pool has templates, and the
companion hard `ValueError` for a pool with no templates at all — and in
particular never degrades to an empty encounter. -/
theorem c5_combat_no_candidates :
    ∀ (ctx : Ctx) (level : Int) (biome slot : String) (rng : Rng),
    filterCombatTemplates ctx.tables.encounter_templates level biome slot = [] →
    generateCombat ctx level biome slot rng =
      Res.err (if ctx.tables.encounter_templates.isEmpty then PyError.noTemplates
               else PyError.noCandidates) rng := by
  intro ctx level biome slot rng h
  by_cases he : ctx.tables.encounter_templates.isEmpty
  · simp [generateCombat, he]
  · simp [generateCombat, he, h]

/-- Witness for C5: at level 1 the level-5 template filters out and combat
generation returns the no-candidates error. -/
theorem c5_witness :
    generateCombat ctx5 1 "dungeon" "entrance" rng0 =
      Res.err PyError.noCandidates rng0 := by
  have h := c5_combat_no_candidates ctx5 1 "dungeon" "entrance" rng0 rfl
  simpa using h

/- ----------------------------------------------------------------------
C9 — noncombat generation degrades silently to the empty encounter
---------------------------------------------------------------------- -/

/-- C9: when the selected noncombat type's table is absent or empty, or the
biome/slot/level filter yields no candidate, `_generate_noncombat_encounter`
returns — without raising and without consuming a draw — the fixed empty
encounter: type `"empty"`, no enemies, no tags, the neutral environment
(null preset id, empty description, no tags, no mechanical effects) and
null loot. -/
theorem c9_noncombat_empty_fallback :
    ∀ (ctx : Ctx) (level : Int) (biome slot enc_type : String) (rng : Rng),
    ((noncombatTable ctx.tables enc_type).getD [] = [] ∨
      filterNoncombat ((noncombatTable ctx.tables enc_type).getD []) level biome slot = []) →
    generateNoncombat ctx level biome slot enc_type rng =
      Res.ok (emptyEncounter level biome slot) rng ∧
    (emptyEncounter level biome slot).type = "empty" ∧
    (emptyEncounter level biome slot).enemies = [] ∧
    (emptyEncounter level biome slot).tags = [] ∧
    (emptyEncounter level biome slot).loot = none ∧
    (emptyEncounter level biome slot).environment = neutralEnv ∧
    neutralEnv.preset_id = none ∧ neutralEnv.description = "" ∧
    neutralEnv.tags = [] ∧ neutralEnv.mechanical_effects = [] := by
  intro ctx level biome slot enc_type rng h
  refine ⟨?_, rfl, rfl, rfl, rfl, rfl, rfl, rfl, rfl, rfl⟩
  cases ht : noncombatTable ctx.tables enc_type with
  | none => simp [generateNoncombat, ht]
  | some entries =>
    rw [ht] at h
    simp only [Option.getD_some] at h
    by_cases he : entries.isEmpty
    · simp [generateNoncombat, ht, he]
    · have hf : filterNoncombat entries level biome slot = [] := by
        rcases h with h | h
        · exact absurd h (by simpa [List.isEmpty_iff] using he)
        · exact h
      simp [generateNoncombat, ht, he, hf]

/-- Witness for C9: with no puzzle table loaded, a puzzle encounter request
yields the empty encounter unchanged-state. -/
theorem c9_witness :
    generateNoncombat ctx9 3 "forest" "setback" "puzzle" rng0 =
      Res.ok (emptyEncounter 3 "forest" "setback") rng0 :=
  (c9_noncombat_empty_fallback ctx9 3 "forest" "setback" "puzzle" rng0 (Or.inl rfl)).1


/- ----------------------------------------------------------------------
C10 — shape invariants of every generated encounter
---------------------------------------------------------------------- -/

/-- Every enemy entry kept by the instantiation loop has a positive count
(non-positive draws are skipped). -/
theorem instantiateEntries_count (ts : Tables) (gf : Option String) :
    ∀ (entries : List GroupEntry) (rng : Rng) (e : EnemyOut),
    e ∈ (instantiateEntries ts gf rng entries).1 → 1 ≤ e.count := by
  intro entries
  induction entries with
  | nil => intro rng e h; simp [instantiateEntries] at h
  | cons entry rest ih =>
    intro rng e h
    rw [instantiateEntries] at h
    by_cases hc : (entryCount entry rng).1 ≤ 0
    · rw [if_pos hc] at h
      exact ih (entryCount entry rng).2 e h
    · rw [if_neg hc] at h
      rcases List.mem_cons.mp h with rfl | hmem
      · show 1 ≤ (entryCount entry rng).1
        omega
      · exact ih (entryCount entry rng).2 e hmem

/-- Every enemy list produced by `_instantiate_enemy_group` has entries
with count at least 1. -/
theorem instantiateEnemyGroup_count :
    ∀ (ts : Tables) (gid : Option String) (lvl : Int) (rng : Rng)
      (out : List EnemyOut) (r : Rng),
    instantiateEnemyGroup ts gid lvl rng = Res.ok out r → ∀ e ∈ out, 1 ≤ e.count := by
  intro ts gid lvl rng out r h
  simp only [instantiateEnemyGroup] at h
  split at h
  · exact absurd h (by simp)
  next gid' =>
    split at h
    · exact absurd h (by simp)
    split at h
    · exact absurd h (by simp)
    next group hg =>
      obtain ⟨rfl, rfl⟩ := by simpa using h
      intro e he
      exact instantiateEntries_count ts group.faction (group.enemies.getD []) rng e he

/-- Shape of a successful combat encounter: its type is `"combat"` and all
its enemy counts are positive. -/
theorem generateCombat_shape :
    ∀ (ctx : Ctx) (level : Int) (biome slot : String) (rng : Rng)
      (enc : Encounter) (r : Rng),
    generateCombat ctx level biome slot rng = Res.ok enc r →
    enc.type = "combat" ∧ ∀ e ∈ enc.enemies, 1 ≤ e.count := by
  intro ctx level biome slot rng enc r h
  simp only [generateCombat] at h
  split at h
  · exact absurd h (by simp)
  split at h
  · exact absurd h (by simp)
  split at h
  · exact absurd h (by simp)
  next template rng1 hchoice =>
    split at h
    · exact absurd h (by simp)
    next enemies rng2 hgroup =>
      split at h
      · exact absurd h (by simp)
      next loot rngL hloot =>
        obtain ⟨rfl, rfl⟩ := by simpa using h
        exact ⟨rfl, instantiateEnemyGroup_count ctx.tables template.enemy_group_id
          level rng1 enemies rng2 hgroup⟩

/-- Shape of a successful noncombat encounter: its enemies list is empty
and its type is the requested noncombat type or `"empty"`. -/
theorem generateNoncombat_shape :
    ∀ (ctx : Ctx) (level : Int) (biome slot enc_type : String) (rng : Rng)
      (enc : Encounter) (r : Rng),
    generateNoncombat ctx level biome slot enc_type rng = Res.ok enc r →
    enc.enemies = [] ∧ (enc.type = enc_type ∨ enc.type = "empty") := by
  intro ctx level biome slot enc_type rng enc r h
  simp only [generateNoncombat] at h
  split at h
  · obtain ⟨rfl, rfl⟩ := by simpa using h
    exact ⟨rfl, Or.inr rfl⟩
  split at h
  · obtain ⟨rfl, rfl⟩ := by simpa using h
    exact ⟨rfl, Or.inr rfl⟩
  split at h
  · obtain ⟨rfl, rfl⟩ := by simpa using h
    exact ⟨rfl, Or.inr rfl⟩
  split at h
  · exact absurd h (by simp)
  next template rng1 hchoice =>
    split at h
    · split at h
      · exact absurd h (by simp)
      next loot rngL hloot =>
        obtain ⟨rfl, rfl⟩ := by simpa using h
        exact ⟨rfl, Or.inl rfl⟩
    · obtain ⟨rfl, rfl⟩ := by simpa using h
      exact ⟨rfl, Or.inl rfl⟩

/-- C10: every encounter produced by the internal dispatcher — combat,
noncombat or empty — carries exactly the nine record keys with a
three-key `meta`, has an empty enemies list unless its type is
`"combat"`, and every enemy entry present has count at least 1. -/
theorem c10_encounter_invariants :
    ∀ (ctx : Ctx) (level : Int) (biome slot : String) (rng : Rng)
      (enc : Encounter) (r : Rng),
    generateEncounterInternal ctx level biome slot rng = Res.ok enc r →
    encounterKeys enc = ["difficulty", "type", "slot", "biome", "enemies",
      "environment", "tags", "loot", "meta"] ∧
    metaKeys enc.meta = ["template_id", "noncombat_id", "notes"] ∧
    (enc.enemies ≠ [] → enc.type = "combat") ∧
    (∀ e ∈ enc.enemies, 1 ≤ e.count) := by
  intro ctx level biome slot rng enc r h
  refine ⟨rfl, rfl, ?_⟩
  simp only [generateEncounterInternal] at h
  split at h
  next hct =>
    obtain ⟨ht, hcount⟩ := generateCombat_shape ctx level biome slot _ enc r h
    exact ⟨fun _ => ht, hcount⟩
  next hct =>
    split at h
    next hnc =>
      obtain ⟨he, _⟩ := generateNoncombat_shape ctx level biome slot _ _ enc r h
      exact ⟨fun hne => absurd he hne, by simp [he]⟩
    next hnc =>
      obtain ⟨rfl, rfl⟩ := by simpa using h
      exact ⟨fun hne => absurd rfl hne, by simp [emptyEncounter]⟩

/-- Witness for C10, applying the invariant theorem at a context routing
every roll to the empty encounter type. -/
theorem c10_witness :
    encounterKeys (emptyEncounter 2 "dungeon" "climax") = ["difficulty", "type",
      "slot", "biome", "enemies", "environment", "tags", "loot", "meta"] ∧
    metaKeys (emptyEncounter 2 "dungeon" "climax").meta =
      ["template_id", "noncombat_id", "notes"] ∧
    ((emptyEncounter 2 "dungeon" "climax").enemies ≠ [] →
      (emptyEncounter 2 "dungeon" "climax").type = "combat") ∧
    (∀ e ∈ (emptyEncounter 2 "dungeon" "climax").enemies, 1 ≤ e.count) :=
  c10_encounter_invariants ctx10 2 "dungeon" "climax" rng0
    (emptyEncounter 2 "dungeon" "climax") (Rng.mk (fun _ => 0) 2) rfl

/- ----------------------------------------------------------------------
C4 — level validation in LootGenerator.generate
---------------------------------------------------------------------- -/

/-- The coin loop can only raise `ZeroDivisionError`. -/
theorem coinsLoop_err :
    ∀ (l : List (String × ℚ)) (rng : Rng) (rem : ℚ) (e : PyError) (r : Rng),
    coinsLoop rng rem l = Res.err e r → e = PyError.zeroDivision := by
  intro l
  induction l with
  | nil => intro rng rem e r h; simp [coinsLoop] at h
  | cons p rest ih =>
    intro rng rem e r h
    obtain ⟨coin, value⟩ := p
    rw [coinsLoop] at h
    split at h
    · exact absurd h (by simp)
    split at h
    · obtain ⟨rfl, rfl⟩ := by simpa using h
      rfl
    split at h
    · exact ih rng rem e r h
    · split at h
      next qty rng1 heq =>
        split at h
        · split at h
          · exact absurd h (by simp)
          next e2 r2 hrec =>
            obtain ⟨rfl, rfl⟩ := by simpa using h
            exact ih _ _ _ _ hrec
        · exact ih _ _ _ _ h

/-- lootgen's `_weighted_choice` can only raise the `random.choices` total
error. -/
theorem lootWeightedChoice_err :
    ∀ (rng : Rng) (items : List LootItem) (e : PyError) (r : Rng),
    lootWeightedChoice rng items = Res.err e r → e = PyError.choicesTotal := by
  intro rng items e r h
  simp only [lootWeightedChoice] at h
  split at h
  · exact absurd h (by simp)
  split at h
  · obtain ⟨rfl, rfl⟩ := by simpa using h
    rfl
  · exact absurd h (by simp)

/-- Building a parcel's magic item can only raise a `KeyError`. -/
theorem extractMagicOut_err :
    ∀ (it : LootItem) (e : PyError), extractMagicOut it = Except.error e →
    ∃ k, e = PyError.keyError k := by
  intro it e h
  simp only [extractMagicOut] at h
  split at h
  · exact ⟨"id", by simpa using h.symm⟩
  split at h
  · exact ⟨"name", by simpa using h.symm⟩
  split at h
  · exact ⟨"gp_value", by simpa using h.symm⟩
  · exact absurd h (by simp)

/-- Building a parcel's mundane item can only raise a `KeyError`. -/
theorem extractMundaneOut_err :
    ∀ (it : LootItem) (e : PyError), extractMundaneOut it = Except.error e →
    ∃ k, e = PyError.keyError k := by
  intro it e h
  simp only [extractMundaneOut] at h
  split at h
  · exact ⟨"id", by simpa using h.symm⟩
  split at h
  · exact ⟨"name", by simpa using h.symm⟩
  split at h
  · exact ⟨"gp_value", by simpa using h.symm⟩
  · exact absurd h (by simp)

/-- `_generate_parcel` never raises the level-validation error: its
possible exceptions are `ZeroDivisionError`, the `random.choices` total
error, and `KeyError`s of mandatory item fields. -/
theorem generateParcel_ne_levelBudget :
    ∀ (rng : Rng) (cv : List (String × ℚ)) (bb : ℚ) (magicPool mundane : List LootItem)
      (e : PyError) (r : Rng),
    generateParcel rng cv bb magicPool mundane = Res.err e r → e ≠ PyError.levelBudget := by
  intro rng cv bb magicPool mundane e r h
  simp only [generateParcel] at h
  split at h
  next e1 r1 hc =>
    obtain ⟨rfl, rfl⟩ := by simpa using h
    simp only [generateCoins] at hc
    rw [coinsLoop_err _ _ _ _ _ hc]
    simp
  next coins rng1 hc =>
    split at h
    · split at h
      next e2 r2 hw =>
        obtain ⟨rfl, rfl⟩ := by simpa using h
        rw [lootWeightedChoice_err _ _ _ _ hw]
        simp
      next item rng3 hw =>
        split at h
        next e3 hx =>
          obtain ⟨rfl, rfl⟩ := by simpa using h
          obtain ⟨k, rfl⟩ := extractMagicOut_err _ _ hx
          simp
        next mo hx => exact absurd h (by simp)
    · split at h
      next e2 r2 hw =>
        obtain ⟨rfl, rfl⟩ := by simpa using h
        rw [lootWeightedChoice_err _ _ _ _ hw]
        simp
      next item rng3 hw =>
        split at h
        next e3 hx =>
          obtain ⟨rfl, rfl⟩ := by simpa using h
          obtain ⟨k, rfl⟩ := extractMundaneOut_err _ _ hx
          simp
        next mo hx => exact absurd h (by simp)

/-- The parcel loop never raises the level-validation error. -/
theorem parcelsLoop_ne_levelBudget :
    ∀ (n : Nat) (cv : List (String × ℚ)) (bb : ℚ) (magicPool mundane : List LootItem)
      (rng : Rng) (e : PyError) (r : Rng),
    parcelsLoop cv bb magicPool mundane n rng = Res.err e r → e ≠ PyError.levelBudget := by
  intro n
  induction n with
  | zero => intro cv bb mp md rng e r h; simp [parcelsLoop] at h
  | succ n ih =>
    intro cv bb mp md rng e r h
    rw [parcelsLoop] at h
    split at h
    next e1 r1 hp =>
      obtain ⟨rfl, rfl⟩ := by simpa using h
      exact generateParcel_ne_levelBudget _ _ _ _ _ _ _ hp
    next p r1 hp =>
      split at h
      next e2 r2 hl =>
        obtain ⟨rfl, rfl⟩ := by simpa using h
        exact ih _ _ _ _ _ _ _ hl
      next ps r2 hl => exact absurd h (by simp)

/-- C4: `LootGenerator.generate(level, rolls)` raises the level-validation
`ValueError` (the spec's `ConfigurationError`) exactly when `str(level)`
has no entry in `level_budgets_gp`; when it does, the error is raised
before the parcel loop, so no parcel is produced and the generator's
random state is returned unchanged. -/
theorem c4_level_validation :
    ∀ (g : LootGenerator) (level rolls : Int),
    (dictGet (toString level) g.data.level_budgets = none →
      g.generate level rolls = Res.err PyError.levelBudget g.rng) ∧
    (∀ e r, g.generate level rolls = Res.err e r →
      (e = PyError.levelBudget ↔ dictGet (toString level) g.data.level_budgets = none)) := by
  intro g level rolls
  constructor
  · intro hnone
    simp [LootGenerator.generate, hnone]
  · intro e r h
    constructor
    · intro he
      by_contra hns
      rcases Option.ne_none_iff_exists'.mp hns with ⟨b, hb⟩
      simp only [LootGenerator.generate, hb] at h
      split at h
      next e2 r2 hp =>
        obtain ⟨rfl, rfl⟩ := by simpa using h
        exact parcelsLoop_ne_levelBudget _ _ _ _ _ _ _ _ hp he
      next ps r2 hp => exact absurd h (by simp)
    · intro hnone
      simp only [LootGenerator.generate, hnone] at h
      obtain ⟨rfl, rfl⟩ := by simpa using h
      rfl

/-- Witness for C4: level 2 has no budget entry, so generation raises the
level error with the state unchanged. -/
theorem c4_witness : gen4.generate 2 1 = Res.err PyError.levelBudget gen4.rng :=
  (c4_level_validation gen4 2 1).1 rfl


/- ----------------------------------------------------------------------
C7 — coin budget conservation and monotone remaining budget
---------------------------------------------------------------------- -/

/-- Bounds of the uniform integer draw on a non-inverted range. -/
theorem randint_bounds (rng : Rng) (a b : Int) (hab : a ≤ b) :
    a ≤ (rng.randint a b).1 ∧ (rng.randint a b).1 ≤ b := by
  simp only [Rng.randint, Rng.next]
  have he : (b - a + 1).toNat.max 1 = (b - a + 1).toNat := Nat.max_eq_left (by omega)
  rw [he]
  have hlt := Nat.mod_lt (rng.stream rng.pos) (show 0 < (b - a + 1).toNat by omega)
  omega

/-- `dictGet` misses exactly the keys outside the dictionary. -/
theorem dictGet_eq_none (l : List (String × α)) (k : String) :
    dictGet k l = none ↔ k ∉ l.map Prod.fst := by
  induction l with
  | nil => simp [dictGet]
  | cons p rest ih =>
    simp only [dictGet, List.map_cons, List.mem_cons]
    cases hd : dictGet k rest with
    | some v =>
      have hk : k ∈ rest.map Prod.fst := by
        by_contra hn
        rw [ih.mpr hn] at hd
        cases hd
      simp [hk]
    | none =>
      have hk := ih.mp hd
      by_cases hpk : p.1 = k
      · simp [hpk, hk, eq_comm]
      · have hkp : ¬k = p.1 := fun h => hpk h.symm
        simp [hpk, hk, hkp]

/-- Permuting a dictionary with distinct keys does not change lookups. -/
theorem dictGet_perm {l l' : List (String × α)} (hperm : l.Perm l') :
    (l.map Prod.fst).Nodup → ∀ k, dictGet k l = dictGet k l' := by
  induction hperm with
  | nil => intro _ k; rfl
  | cons x h ih =>
    intro hnd k
    simp only [dictGet]
    rw [ih (by simpa using hnd.of_cons) k]
  | swap x y l =>
    intro hnd k
    have hxy : y.1 ≠ x.1 := by
      simp only [List.map_cons, List.nodup_cons, List.mem_cons] at hnd
      exact fun h => hnd.1 (Or.inl h)
    simp only [dictGet]
    cases hd : dictGet k l with
    | some v => rfl
    | none =>
      by_cases hx : x.1 = k <;> by_cases hy : y.1 = k <;> simp [hx, hy]
      exact absurd (hx.trans hy.symm) (fun h => hxy h.symm)
  | trans h1 h2 ih1 ih2 =>
    intro hnd k
    rw [ih1 hnd k, ih2 (((h1.map Prod.fst).nodup_iff).mp hnd) k]

/-- Stable descending insertion permutes to a cons. -/
theorem insertDesc_perm (p : String × ℚ) : ∀ l, (insertDesc p l).Perm (p :: l) := by
  intro l
  induction l with
  | nil => exact List.Perm.refl _
  | cons q rest ih =>
    rw [insertDesc]
    by_cases h : p.2 > q.2
    · rw [if_pos h]
    · rw [if_neg h]
      exact (ih.cons q).trans (List.Perm.swap p q rest)

/-- The denomination sort is a permutation of the coin-value table. -/
theorem sortCoinsDesc_perm : ∀ l : List (String × ℚ), (sortCoinsDesc l).Perm l := by
  intro l
  induction l with
  | nil => exact List.Perm.refl _
  | cons a l ih => exact (insertDesc_perm a (sortCoinsDesc l)).trans (ih.cons a)

/-- Unfolding one coin of the coin-value sum. -/
theorem coinsGPValue_cons (l : List (String × ℚ)) (c : String × Nat)
    (cs : List (String × Nat)) :
    coinsGPValue l (c :: cs) = (dictGet c.1 l).getD 0 * (c.2 : ℚ) + coinsGPValue l cs := rfl

/-- Equal lookups give equal coin values. -/
theorem coinsGPValue_congr (l l' : List (String × ℚ))
    (h : ∀ k, dictGet k l = dictGet k l') :
    ∀ out, coinsGPValue l out = coinsGPValue l' out := by
  intro out
  induction out with
  | nil => rfl
  | cons c cs ih => rw [coinsGPValue_cons, coinsGPValue_cons, ih, h c.1]

/-- A head denomination not mentioned by the coins does not change their
value. -/
theorem coinsGPValue_cons_of_keys (q : String × ℚ) (l : List (String × ℚ))
    (out : List (String × Nat)) (h : ∀ c ∈ out, c.1 ∈ l.map Prod.fst) :
    coinsGPValue (q :: l) out = coinsGPValue l out := by
  induction out with
  | nil => rfl
  | cons c cs ih =>
    rw [coinsGPValue_cons, coinsGPValue_cons, ih (fun c hc => h c (List.mem_cons_of_mem _ hc))]
    have hmem := h c (List.mem_cons_self _ _)
    cases hd : dictGet c.1 l with
    | some v => simp [dictGet, hd]
    | none => exact absurd hmem (by simpa using (dictGet_eq_none l c.1).mp hd)

/-- Invariant of the coin loop: over positive, distinct denominations the
kept coins name denominations of the list and their total GP value never
exceeds the (non-negative part of the) remaining budget. -/
theorem coinsLoop_spend :
    ∀ (l : List (String × ℚ)) (rng : Rng) (rem : ℚ) (out : List (String × Nat)) (r : Rng),
    (∀ p ∈ l, 0 < p.2) → (l.map Prod.fst).Nodup →
    coinsLoop rng rem l = Res.ok out r →
    (∀ c ∈ out, c.1 ∈ l.map Prod.fst) ∧ coinsGPValue l out ≤ max 0 rem := by
  intro l
  induction l with
  | nil =>
    intro rng rem out r hpos hnd h
    obtain ⟨rfl, rfl⟩ := by simpa [coinsLoop] using h
    exact ⟨by simp, by simpa [coinsGPValue] using le_max_left 0 rem⟩
  | cons p rest ih =>
    intro rng rem out r hpos hnd h
    obtain ⟨coin, value⟩ := p
    have hvpos : (0 : ℚ) < value := hpos (coin, value) (List.mem_cons_self _ _)
    have hposr : ∀ q ∈ rest, (0 : ℚ) < q.2 := fun q hq => hpos q (List.mem_cons_of_mem _ hq)
    have hndr : (rest.map Prod.fst).Nodup := by simpa using hnd.of_cons
    have hcoin_nm : coin ∉ rest.map Prod.fst := by
      simp only [List.map_cons, List.nodup_cons] at hnd
      exact hnd.1
    rw [coinsLoop] at h
    split at h
    next hrem =>
      obtain ⟨rfl, rfl⟩ := by simpa using h
      exact ⟨by simp, by simpa [coinsGPValue] using le_max_left 0 rem⟩
    split at h
    next hv0 => exact absurd hv0 (ne_of_gt hvpos)
    next hrem hv0 =>
      have hrpos : (0 : ℚ) < rem := lt_of_not_le hrem
      split at h
      next htr =>
        obtain ⟨hkeys, hval⟩ := ih rng rem out r hposr hndr h
        refine ⟨fun c hc => List.mem_cons_of_mem _ (hkeys c hc), ?_⟩
        rw [coinsGPValue_cons_of_keys _ _ _ hkeys]
        exact hval
      next htr =>
        have htrpos : 0 < ratTrunc (rem / value) := lt_of_not_le htr
        have hqb := randint_bounds rng 0 (ratTrunc (rem / value)) (le_of_lt htrpos)
        split at h
        next qty rng1 heq =>
          rw [heq] at hqb
          simp only at hqb
          have hfloor : (ratTrunc (rem / value) : ℚ) ≤ rem / value := by
            have hx : (0 : ℚ) ≤ rem / value := le_of_lt (div_pos hrpos hvpos)
            simp only [ratTrunc, if_pos hx]
            exact Int.floor_le _
          have hspend : (qty : ℚ) * value ≤ rem := by
            calc (qty : ℚ) * value
                ≤ (ratTrunc (rem / value) : ℚ) * value := by
                  apply mul_le_mul_of_nonneg_right _ (le_of_lt hvpos)
                  exact_mod_cast hqb.2
              _ ≤ (rem / value) * value :=
                  mul_le_mul_of_nonneg_right hfloor (le_of_lt hvpos)
              _ = rem := div_mul_cancel₀ rem (ne_of_gt hvpos)
          split at h
          next hqpos =>
            split at h
            next out' rng2 hrec =>
              obtain ⟨rfl, rfl⟩ := by simpa using h
              obtain ⟨hkeys, hval⟩ := ih rng1 (rem - qty * value) out' rng2 hposr hndr hrec
              have hrem' : (0 : ℚ) ≤ rem - qty * value := by linarith
              constructor
              · intro c hc
                rcases List.mem_cons.mp hc with rfl | hc'
                · simp
                · exact List.mem_cons_of_mem _ (hkeys c hc')
              · have hdg : dictGet coin ((coin, value) :: rest) = some value := by
                  have hn : dictGet coin rest = none := (dictGet_eq_none rest coin).mpr hcoin_nm
                  simp [dictGet, hn]
                have hcv : coinsGPValue ((coin, value) :: rest) out' = coinsGPValue rest out' :=
                  coinsGPValue_cons_of_keys _ _ _ hkeys
                have hval' : coinsGPValue rest out' ≤ rem - qty * value := by
                  rw [max_eq_right hrem'] at hval
                  exact hval
                have hcast : ((qty.toNat : Nat) : ℚ) = (qty : ℚ) := by
                  exact_mod_cast congrArg (fun z : Int => (z : ℚ)) (Int.toNat_of_nonneg hqb.1)
                rw [max_eq_right (le_of_lt (lt_of_lt_of_le hrpos (le_refl rem)))]
                calc coinsGPValue ((coin, value) :: rest) ((coin, qty.toNat) :: out')
                    = value * ((qty.toNat : Nat) : ℚ) + coinsGPValue rest out' := by
                      rw [coinsGPValue_cons, hdg, hcv]
                      simp
                  _ = (qty : ℚ) * value + coinsGPValue rest out' := by
                      rw [hcast]; ring
                  _ ≤ rem := by linarith
            next e2 r2 hrec => exact absurd h (by simp)
          next hqz =>
            obtain ⟨hkeys, hval⟩ := ih rng1 rem out r hposr hndr h
            refine ⟨fun c hc => List.mem_cons_of_mem _ (hkeys c hc), ?_⟩
            rw [coinsGPValue_cons_of_keys _ _ _ hkeys]
            exact hval

/-- The remaining-budget trace starts at the incoming budget. -/
theorem remTrace_head :
    ∀ (l : List (String × ℚ)) (rng : Rng) (rem : ℚ),
    (remTrace rng rem l).head? = some rem := by
  intro l rng rem
  rcases l with _ | ⟨⟨coin, value⟩, rest⟩
  · rfl
  · rw [remTrace]
    split_ifs <;> rfl

/-- Over positive denomination values the remaining budget never increases
along the coin loop. -/
theorem remTrace_chain :
    ∀ (l : List (String × ℚ)) (rng : Rng) (rem : ℚ), (∀ p ∈ l, 0 < p.2) →
    List.Chain' (fun a b => b ≤ a) (remTrace rng rem l) := by
  intro l
  induction l with
  | nil => intro rng rem _; simp [remTrace]
  | cons p rest ih =>
    intro rng rem hpos
    obtain ⟨coin, value⟩ := p
    have hv : (0 : ℚ) < value := hpos _ (List.mem_cons_self _ _)
    have hpr : ∀ q ∈ rest, (0 : ℚ) < q.2 := fun q hq => hpos q (List.mem_cons_of_mem _ hq)
    rw [remTrace]
    split_ifs with h1 h2 h3 h4
    · simp
    · simp
    · rw [List.chain'_cons']
      refine ⟨?_, ih rng rem hpr⟩
      intro b hb
      rw [remTrace_head, Option.mem_def, Option.some_inj] at hb
      exact le_of_eq hb.symm
    · rw [List.chain'_cons']
      have htrpos : 0 < ratTrunc (rem / value) := lt_of_not_le h3
      have hqb := randint_bounds rng 0 (ratTrunc (rem / value)) (le_of_lt htrpos)
      refine ⟨?_, ih _ _ hpr⟩
      intro b hb
      rw [remTrace_head, Option.mem_def, Option.some_inj] at hb
      subst hb
      have hq0 : (0 : ℚ) ≤ ((rng.randint 0 (ratTrunc (rem / value))).1 : ℚ) := by
        exact_mod_cast hqb.1
      nlinarith
    · rw [List.chain'_cons']
      refine ⟨?_, ih _ _ hpr⟩
      intro b hb
      rw [remTrace_head, Option.mem_def, Option.some_inj] at hb
      subst hb
      exact le_refl rem

/-- C7: over a coin-value table with positive values and distinct
denominations, and a non-negative coin budget, the generated coin mixture's
GP value (as `_calculate_parcel_value` computes it) never exceeds the
budget; the remaining budget only ever decreases along the high-to-low
denomination loop; and within a parcel the coins are bounded by 20% of the
level's GP budget. -/
theorem c7_coin_budget :
    ∀ (coin_values : List (String × ℚ)) (budget : ℚ) (rng : Rng),
    (∀ p ∈ coin_values, 0 < p.2) → (coin_values.map Prod.fst).Nodup → 0 ≤ budget →
    (∀ out r, generateCoins rng coin_values budget = Res.ok out r →
      coinsGPValue coin_values out ≤ budget) ∧
    List.Chain' (fun a b => b ≤ a) (remTrace rng budget (sortCoinsDesc coin_values)) ∧
    (∀ (base_budget : ℚ) (magicPool mundane : List LootItem) (p : Parcel) (r : Rng),
      0 ≤ base_budget →
      generateParcel rng coin_values base_budget magicPool mundane = Res.ok p r →
      coinsGPValue coin_values p.coins ≤ base_budget * (0.20 : ℚ)) := by
  intro cv budget rng hpos hnd hb
  have hperm := sortCoinsDesc_perm cv
  have hpos' : ∀ p ∈ sortCoinsDesc cv, (0 : ℚ) < p.2 := fun p hp => hpos p (hperm.mem_iff.mp hp)
  have hnd' : ((sortCoinsDesc cv).map Prod.fst).Nodup :=
    ((hperm.map Prod.fst).nodup_iff).mpr hnd
  have hlook : ∀ k, dictGet k cv = dictGet k (sortCoinsDesc cv) := dictGet_perm hperm.symm hnd
  have hcoins : ∀ (b0 : ℚ), 0 ≤ b0 → ∀ (rng' : Rng) out r,
      generateCoins rng' cv b0 = Res.ok out r → coinsGPValue cv out ≤ b0 := by
    intro b0 hb0 rng' out r h
    simp only [generateCoins] at h
    have hsp := (coinsLoop_spend (sortCoinsDesc cv) rng' b0 out r hpos' hnd' h).2
    rw [coinsGPValue_congr cv (sortCoinsDesc cv) hlook out]
    rwa [max_eq_right hb0] at hsp
  refine ⟨hcoins budget hb rng, remTrace_chain _ rng budget hpos', ?_⟩
  intro bb mp md p r hbb hp
  have hbb2 : (0 : ℚ) ≤ bb * (0.20 : ℚ) := by
    apply mul_nonneg hbb
    norm_num
  simp only [generateParcel] at hp
  split at hp
  · exact absurd hp (by simp)
  next coins rng1 hc =>
    have hcov : coinsGPValue cv coins ≤ bb * (0.20 : ℚ) := hcoins _ hbb2 rng coins rng1 hc
    split at hp
    · split at hp
      · exact absurd hp (by simp)
      next item rng3 hw =>
        split at hp
        · exact absurd hp (by simp)
        next mo hx =>
          obtain ⟨rfl, rfl⟩ := by simpa using hp
          simpa using hcov
    · split at hp
      · exact absurd hp (by simp)
      next item rng3 hw =>
        split at hp
        · exact absurd hp (by simp)
        next mo hx =>
          obtain ⟨rfl, rfl⟩ := by simpa using hp
          simpa using hcov

/-- Witness for C7 at a concrete gold/silver table and budget 10. -/
theorem c7_witness :
    (∀ out r, generateCoins rng0 cv7 10 = Res.ok out r → coinsGPValue cv7 out ≤ 10) ∧
    List.Chain' (fun a b => b ≤ a) (remTrace rng0 10 (sortCoinsDesc cv7)) := by
  have h := c7_coin_budget cv7 10 rng0
    (by
      intro p hp
      simp only [cv7, List.mem_cons, List.not_mem_nil, or_false] at hp
      rcases hp with rfl | rfl <;> norm_num)
    (by simp [cv7]) (by norm_num)
  exact ⟨h.1, h.2.1⟩

/- ----------------------------------------------------------------------
C8 — tolerance of missing optional fields in loot table entries
---------------------------------------------------------------------- -/

/-- C8 counterexample: the claim asserts loot generation never raises on
account of an entry's content; in fact the selected mundane item lacking
its `name` key makes `_generate_parcel` raise `KeyError("name")` from the
mandatory access `item["name"]`. -/
theorem c8_counterexample :
    gen8.generate 1 1 = Res.err (PyError.keyError "name") (Rng.mk (fun _ => 0) 3) := by
  norm_num [LootGenerator.generate, generateParcel, parcelsLoop, generateCoins,
    coinsLoop, sortCoinsDesc, insertDesc, lootWeightedChoice, extractMundaneOut,
    filterMagicByLevel, dictGet, ratTrunc, Rng.randint, Rng.randFloat, Rng.next,
    cumSums, gen8, lootData8, noNameItem, rng0,
    show toString (1 : Int) = "1" from rfl]

/-- Over positive denomination values the coin loop always succeeds. -/
theorem coinsLoop_ok :
    ∀ (l : List (String × ℚ)) (rng : Rng) (rem : ℚ), (∀ p ∈ l, 0 < p.2) →
    ∃ out r, coinsLoop rng rem l = Res.ok out r := by
  intro l
  induction l with
  | nil => intro rng rem _; exact ⟨[], rng, rfl⟩
  | cons p rest ih =>
    intro rng rem hpos
    obtain ⟨coin, value⟩ := p
    have hv : (0 : ℚ) < value := hpos _ (List.mem_cons_self _ _)
    have hpr : ∀ q ∈ rest, (0 : ℚ) < q.2 := fun q hq => hpos q (List.mem_cons_of_mem _ hq)
    rw [coinsLoop]
    by_cases h1 : rem ≤ 0
    · rw [if_pos h1]
      exact ⟨[], rng, rfl⟩
    rw [if_neg h1, if_neg (ne_of_gt hv)]
    by_cases h3 : ratTrunc (rem / value) ≤ 0
    · rw [if_pos h3]
      exact ih rng rem hpr
    rw [if_neg h3]
    rcases hq : rng.randint 0 (ratTrunc (rem / value)) with ⟨qty, rng1⟩
    dsimp only
    by_cases h4 : 0 < qty
    · rw [if_pos h4]
      obtain ⟨out, r, hrec⟩ := ih rng1 (rem - qty * value) hpr
      rw [hrec]
      exact ⟨_, _, rfl⟩
    · rw [if_neg h4]
      exact ih rng1 rem hpr

/-- With a positive weight total, lootgen's `_weighted_choice` succeeds and
returns a member of the pool. -/
theorem lootWeightedChoice_pos_ok :
    ∀ (rng : Rng) (items : List LootItem), items ≠ [] →
    0 < (items.map fun it => it.weight.getD 1).sum →
    ∃ it r, lootWeightedChoice rng items = Res.ok it r ∧ it ∈ items := by
  intro rng items hne hpos
  simp only [lootWeightedChoice]
  rw [if_neg (by simpa [List.isEmpty_iff] using hne), if_neg (not_le.mpr hpos)]
  refine ⟨_, _, rfl, ?_⟩
  have hlen : 0 < items.length := List.length_pos.mpr hne
  have hidx : (((cumSums 0 (items.map fun it => it.weight.getD 1)).take
      (items.length - 1)).countP fun c =>
        decide (c ≤ (rng.randFloat.1 * (items.map fun it => it.weight.getD 1).sum))) <
      items.length := by
    calc (((cumSums 0 (items.map fun it => it.weight.getD 1)).take
        (items.length - 1)).countP _)
        ≤ ((cumSums 0 (items.map fun it => it.weight.getD 1)).take
            (items.length - 1)).length := List.countP_le_length _
      _ ≤ items.length - 1 := by
          rw [List.length_take]
          exact min_le_left _ _
      _ < items.length := by omega
  rw [List.getD_eq_getElem?_getD, List.getElem?_eq_getElem hidx, Option.getD_some]
  exact List.getElem_mem _

/-- With its three mandatory keys present, the mundane-item record
builds. -/
theorem extractMundaneOut_ok (it : LootItem) (h1 : it.id.isSome = true)
    (h2 : it.name.isSome = true) (h3 : it.gp_value.isSome = true) :
    ∃ mo, extractMundaneOut it = Except.ok mo := by
  simp only [extractMundaneOut]
  obtain ⟨i, hi⟩ := Option.isSome_iff_exists.mp h1
  obtain ⟨n, hn⟩ := Option.isSome_iff_exists.mp h2
  obtain ⟨v, hv⟩ := Option.isSome_iff_exists.mp h3
  rw [hi, hn, hv]
  exact ⟨_, rfl⟩

/-- With its three mandatory keys present, the magic-item record builds. -/
theorem extractMagicOut_ok (it : LootItem) (h1 : it.id.isSome = true)
    (h2 : it.name.isSome = true) (h3 : it.gp_value.isSome = true) :
    ∃ mo, extractMagicOut it = Except.ok mo := by
  simp only [extractMagicOut]
  obtain ⟨i, hi⟩ := Option.isSome_iff_exists.mp h1
  obtain ⟨n, hn⟩ := Option.isSome_iff_exists.mp h2
  obtain ⟨v, hv⟩ := Option.isSome_iff_exists.mp h3
  rw [hi, hn, hv]
  exact ⟨_, rfl⟩

/-- Under the mandatory-field and positive-weight conditions,
`_generate_parcel` always succeeds, whatever the optional fields hold. -/
theorem generateParcel_ok :
    ∀ (rng : Rng) (cv : List (String × ℚ)) (bb : ℚ) (magicPool mundane : List LootItem),
    (∀ p ∈ cv, 0 < p.2) →
    mundane ≠ [] →
    0 < (mundane.map fun it => it.weight.getD 1).sum →
    (∀ it ∈ mundane, it.id.isSome ∧ it.name.isSome ∧ it.gp_value.isSome) →
    (magicPool ≠ [] → 0 < (magicPool.map fun it => it.weight.getD 1).sum) →
    (∀ it ∈ magicPool, it.id.isSome ∧ it.name.isSome ∧ it.gp_value.isSome) →
    ∃ p r, generateParcel rng cv bb magicPool mundane = Res.ok p r := by
  intro rng cv bb magicPool mundane hcv hmne hmw hmf hgw hgf
  have hperm := sortCoinsDesc_perm cv
  have hcv' : ∀ p ∈ sortCoinsDesc cv, (0 : ℚ) < p.2 := fun p hp => hcv p (hperm.mem_iff.mp hp)
  obtain ⟨coins, rc, hc⟩ := coinsLoop_ok (sortCoinsDesc cv) rng (bb * (0.20 : ℚ)) hcv'
  simp only [generateParcel, generateCoins, hc]
  split
  next hcond =>
    have hmp_ne : magicPool ≠ [] := by
      intro hnil
      subst hnil
      simp at hcond
    obtain ⟨it, rw', hw, hmem⟩ := lootWeightedChoice_pos_ok rc.randFloat.2 magicPool
      hmp_ne (hgw hmp_ne)
    rw [hw]
    dsimp only
    obtain ⟨hf1, hf2, hf3⟩ := hgf it hmem
    obtain ⟨mo, hx⟩ := extractMagicOut_ok it hf1 hf2 hf3
    rw [hx]
    exact ⟨_, _, rfl⟩
  next hcond =>
    obtain ⟨it, rw', hw, hmem⟩ := lootWeightedChoice_pos_ok rc.randFloat.2 mundane hmne hmw
    rw [hw]
    dsimp only
    obtain ⟨hf1, hf2, hf3⟩ := hmf it hmem
    obtain ⟨mo, hx⟩ := extractMundaneOut_ok it hf1 hf2 hf3
    rw [hx]
    exact ⟨_, _, rfl⟩

/-- Under the same conditions the parcel loop always succeeds. -/
theorem parcelsLoop_ok :
    ∀ (n : Nat) (rng : Rng) (cv : List (String × ℚ)) (bb : ℚ)
      (magicPool mundane : List LootItem),
    (∀ p ∈ cv, 0 < p.2) →
    mundane ≠ [] →
    0 < (mundane.map fun it => it.weight.getD 1).sum →
    (∀ it ∈ mundane, it.id.isSome ∧ it.name.isSome ∧ it.gp_value.isSome) →
    (magicPool ≠ [] → 0 < (magicPool.map fun it => it.weight.getD 1).sum) →
    (∀ it ∈ magicPool, it.id.isSome ∧ it.name.isSome ∧ it.gp_value.isSome) →
    ∃ ps r, parcelsLoop cv bb magicPool mundane n rng = Res.ok ps r := by
  intro n
  induction n with
  | zero => intro rng cv bb mp md _ _ _ _ _ _; exact ⟨[], rng, rfl⟩
  | succ n ih =>
    intro rng cv bb mp md hcv hmne hmw hmf hgw hgf
    obtain ⟨p, r1, hp⟩ := generateParcel_ok rng cv bb mp md hcv hmne hmw hmf hgw hgf
    obtain ⟨ps, r2, hl⟩ := ih r1 cv bb mp md hcv hmne hmw hmf hgw hgf
    simp only [parcelsLoop, hp, hl]
    exact ⟨_, _, rfl⟩

/-- C8 (amended): loot table entries tolerate missing optional fields —
`weight` (default 1.0), `rarity` (default `"common"`), `min_level` /
`max_level` (defaults 1 / 20) — and generation succeeds whatever those
optional keys hold; but the selected item's `id`, `name` and `gp_value`
are mandatory: a selected entry missing one of them raises `KeyError`
(the counterexample), and a non-positive weight total raises `ValueError`
from `random.choices`. -/
theorem c8_amended :
    ∀ (g : LootGenerator) (level rolls : Int) (base : ℚ),
    dictGet (toString level) g.data.level_budgets = some base →
    (∀ p ∈ g.data.coin_values, 0 < p.2) →
    g.data.mundane_goods ≠ [] →
    0 < (g.data.mundane_goods.map fun it => it.weight.getD 1).sum →
    (∀ it ∈ g.data.mundane_goods, it.id.isSome ∧ it.name.isSome ∧ it.gp_value.isSome) →
    (filterMagicByLevel g.data.magic_items level ≠ [] →
      0 < ((filterMagicByLevel g.data.magic_items level).map fun it => it.weight.getD 1).sum) →
    (∀ it ∈ g.data.magic_items, it.id.isSome ∧ it.name.isSome ∧ it.gp_value.isSome) →
    ∃ out r, g.generate level rolls = Res.ok out r := by
  intro g level rolls base hbase hcv hmne hmw hmf hgw hgf
  have hgf' : ∀ it ∈ filterMagicByLevel g.data.magic_items level,
      it.id.isSome ∧ it.name.isSome ∧ it.gp_value.isSome := by
    intro it hit
    exact hgf it (List.mem_filter.mp hit).1
  obtain ⟨ps, r, hl⟩ := parcelsLoop_ok (max 1 rolls).toNat g.rng g.data.coin_values base
    (filterMagicByLevel g.data.magic_items level) g.data.mundane_goods
    hcv hmne hmw hmf hgw hgf'
  simp only [LootGenerator.generate, hbase, hl]
  exact ⟨_, _, rfl⟩

/-- Witness for C8 (amended): generation succeeds although the item has no
`weight`, `rarity`, `min_level` or `max_level` key. -/
theorem c8_amended_witness : ∃ out r, gen8b.generate 1 1 = Res.ok out r :=
  c8_amended gen8b 1 1 10 rfl
    (by
      intro p hp
      simp only [gen8b, lootData8b, List.mem_cons, List.not_mem_nil, or_false] at hp
      subst hp
      norm_num)
    (by simp [gen8b, lootData8b])
    (by norm_num [gen8b, lootData8b, fullItem])
    (by
      intro it hit
      simp only [gen8b, lootData8b, List.mem_cons, List.not_mem_nil, or_false] at hit
      subst hit
      simp [fullItem])
    (by intro h; exact absurd rfl h)
    (by intro it hit; simp [gen8b, lootData8b] at hit)
